import Mathlib

/-!
The resource services of `pkg/todo` and `pkg/authorization` of todo-service.

A shallow embedding of the two `dbSvc` implementations (`pkg/todo/db.go`,
`pkg/authorization/db.go`) together with the data types they work on.

* Go `error` values are modelled by `GoError`; `nil` is `none`.
* A `uuid.UUID` is the 128-bit number formed by its sixteen bytes, most
  significant byte first; `uuid.Nil` is `0`.
* A `time.Time` is a number of clock ticks, the zero time being `0`; a
  `gorm.DeletedAt` (a nullable time) is an `Option`.
* The `*gorm.DB` handle of a service is a record of the calls the service
  makes on it (`todo.Store`, `authorization.Store`), so that every service
  method is embedded exactly as written, for any store.  `todo.sqlite` and
  `authorization.sqlite` give the behaviour of these calls on a working
  database, each table being the list of its rows.
-/

set_option autoImplicit false

/-! ## Library types -/

namespace uuid

/-- A `uuid.UUID`: its sixteen bytes read as one big-endian number. -/
abbrev UUID := Nat

/-- The value `uuid.Nil`, all sixteen bytes zero. -/
def Nil : UUID := 0

/-- The value of `uuid.New()` when the random source delivers the 128 bits `r`:
the version nibble (high half of byte 6) is forced to `4` and the two top bits
of byte 8 to `10`. -/
def New (r : Nat) : UUID :=
  (r % 2 ^ 128 / 2 ^ 80) * 2 ^ 80 + 4 * 2 ^ 76 + (r % 2 ^ 128 / 2 ^ 64 % 2 ^ 12) * 2 ^ 64
    + 2 * 2 ^ 62 + r % 2 ^ 62

end uuid

/-- Go error values that occur in the two services.  The package level
`errors.New` variables are distinct values even where their messages agree. -/
inductive GoError where
  | todo_ErrPopulatedID
  | todo_ErrOwnerChanged
  | todo_ErrOwnerMissing
  | todo_ErrInconsistentIDs
  | todo_ErrAlreadyExists
  | todo_ErrNotFound
  | todo_ErrInvalidUUID
  | authorization_ErrInvalidUserObject
  | authorization_ErrAuthenticationFailed
  | authorization_ErrIDMissing
  | authorization_ErrInconsistentIDs
  | authorization_ErrInconsistentIDUserName
  | authorization_ErrNotFound
  | gorm_ErrRecordNotFound
  | gorm_ErrMissingWhereClause
  | sqlite_ErrConstraintUnique
  | driver (code : Nat)
  | argon2id (code : Nat)
  deriving DecidableEq, Repr

/-- A Go `error`: `none` is `nil`. -/
abbrev error := Option GoError

namespace gorm

/-- The value `gorm.ErrRecordNotFound`. -/
abbrev ErrRecordNotFound : GoError := GoError.gorm_ErrRecordNotFound

/-- The value `gorm.ErrMissingWhereClause`. -/
abbrev ErrMissingWhereClause : GoError := GoError.gorm_ErrMissingWhereClause

/-- The struct `gorm.Model`. -/
structure Model where
  ID : Nat := 0
  CreatedAt : Nat := 0
  UpdatedAt : Nat := 0
  DeletedAt : Option Nat := none
  deriving DecidableEq, Repr

/-- What a store call reads from its surroundings: the clock (`NowFunc`) and
the random bits a `uuid.New()` inside a hook would draw. -/
structure Env where
  now : Nat
  rand : Nat
  deriving DecidableEq, Repr

end gorm

/-! ## Package `authorization` -/

namespace authorization

/-- The struct `User` of `pkg/authorization/service.go`. -/
structure User where
  ID : uuid.UUID := uuid.Nil
  Username : String := ""
  Password : String := ""
  deriving DecidableEq, Repr

abbrev ErrInvalidUserObject : GoError := GoError.authorization_ErrInvalidUserObject
abbrev ErrAuthenticationFailed : GoError := GoError.authorization_ErrAuthenticationFailed
abbrev ErrIDMissing : GoError := GoError.authorization_ErrIDMissing
abbrev ErrInconsistentIDs : GoError := GoError.authorization_ErrInconsistentIDs
abbrev ErrInconsistentIDUserName : GoError := GoError.authorization_ErrInconsistentIDUserName
abbrev ErrNotFound : GoError := GoError.authorization_ErrNotFound

/-- The struct `storedUser` of `pkg/authorization/db.go`: a row of table
`users`.  The embedded `gorm.Model` brings the timestamps and the soft-delete
marker; its own numeric `ID` is shadowed by the field `ID` and is no column. -/
structure storedUser where
  Model : gorm.Model := {}
  ID : uuid.UUID := uuid.Nil
  Username : String := ""
  PasswordHash : String := ""
  deriving DecidableEq, Repr

/-- The hook `(*storedUser).BeforeCreate`; `r` is what the random source
delivers.  The hook never fails. -/
def storedUser.BeforeCreate (u : storedUser) (r : Nat) : storedUser :=
  if u.ID = uuid.Nil then { u with ID := uuid.New r } else u

/-- The method `storedUser.ToUser`. -/
def storedUser.ToUser (u : storedUser) : User :=
  { ID := u.ID, Username := u.Username }

end authorization

namespace argon2id

/-- Modelled from the spec: the struct `Params` of `internal/argon2id`, which is
not among the sources; its fields are the hashing parameters the spec lists
(memory cost, time cost, parallelism, salt length, key length). -/
structure Params where
  Memory : Nat := 0
  Iterations : Nat := 0
  Parallelism : Nat := 0
  SaltLength : Nat := 0
  KeyLength : Nat := 0
  deriving DecidableEq, Repr

/-- The two functions of `internal/argon2id` the service calls, taken as
parameters: `HashPassword password params` and
`ComparePasswordAndHash password hash`, each with its error. -/
structure Funcs where
  HashPassword : String → Params → String × error
  ComparePasswordAndHash : String → String → Bool × error

end argon2id

namespace authorization

/-- The method `(*storedUser).ComparePassword`. -/
def storedUser.ComparePassword (a : argon2id.Funcs) (u : storedUser) (password : String) :
    Bool × error :=
  a.ComparePasswordAndHash password u.PasswordHash

/-- The function `newStoredUser`. -/
def newStoredUser (a : argon2id.Funcs) (U : User) (passwordHashParameters : argon2id.Params) :
    storedUser × error :=
  let hashed : String × error :=
    if U.Password ≠ "" then a.HashPassword U.Password passwordHashParameters else ("", none)
  ({ ID := U.ID, Username := U.Username, PasswordHash := hashed.1 }, hashed.2)

/-- The calls `pkg/authorization/db.go` makes on its `*gorm.DB`, over a store
state `σ`.

* `Create db u` is `s.db.Create(&u)`: the new state, `u` as the call leaves it,
  and `result.Error`.
* `ModelFirst db m dest` is `s.db.Model(&m).First(&dest)`.
* `WhereFirst db cond dest` is `s.db.Where(&cond).First(&dest)`.
* `ModelUpdates db u` is `s.db.Model(&u).Updates(u)`: the new state, `u` as the
  call leaves it, and `result.Error`.
* `Delete db dest id` is `s.db.Delete(&dest, "id = ?", id.String())`.
* `Find db` is `s.db.Find(&users)` on a nil slice. -/
structure Store (σ : Type) where
  Create : σ → storedUser → σ × storedUser × error
  ModelFirst : σ → storedUser → storedUser → storedUser × error
  WhereFirst : σ → storedUser → storedUser → storedUser × error
  ModelUpdates : σ → storedUser → σ × storedUser × error
  Delete : σ → storedUser → uuid.UUID → σ × error
  Find : σ → List storedUser × error

/-- The struct `dbSvc` of `pkg/authorization/db.go`, with the hashing package it
calls. -/
structure dbSvc (σ : Type) where
  hasher : argon2id.Funcs
  hashParams : argon2id.Params
  db : Store σ

section dbSvc

variable {σ : Type}

/-- The method `(*dbSvc).AddUser`. -/
def AddUser (s : dbSvc σ) (db : σ) (u : User) : σ × User × error :=
  if u.Username = "" ∨ u.Password = "" then (db, {}, some ErrInvalidUserObject)
  else
    let made := newStoredUser s.hasher u s.hashParams
    if made.2 ≠ none then (db, {}, made.2)
    else
      let result := s.db.Create db made.1
      if result.2.2 ≠ none then (result.1, {}, result.2.2)
      else (result.1, result.2.1.ToUser, none)

/-- The method `(*dbSvc).GetUser`. -/
def GetUser (s : dbSvc σ) (db : σ) (id : uuid.UUID) : User × error :=
  let result := s.db.ModelFirst db { ID := id } {}
  if result.2 = some gorm.ErrRecordNotFound then ({}, some ErrNotFound)
  else (result.1.ToUser, result.2)

/-- The method `(*dbSvc).FindUser`. -/
def FindUser (s : dbSvc σ) (db : σ) (username : String) : User × error :=
  let result := s.db.WhereFirst db { Username := username } {}
  if result.2 = some gorm.ErrRecordNotFound then ({}, some ErrNotFound)
  else (result.1.ToUser, result.2)

/-- The method `(*dbSvc).UpdateUser`.  The second test of `result.Error` is the
one of the source: it follows the call of `newStoredUser` and returns `err`. -/
def UpdateUser (s : dbSvc σ) (db : σ) (id : uuid.UUID) (U : User) : σ × User × error :=
  let U := if U.ID = uuid.Nil then { U with ID := id } else U
  if U.ID ≠ id then (db, {}, some ErrInconsistentIDs)
  else
    let result := s.db.ModelFirst db { ID := id } {}
    if result.2 ≠ none then (db, {}, result.2)
    else
      let made := newStoredUser s.hasher U s.hashParams
      if result.2 ≠ none then (db, {}, made.2)
      else
        let result2 := s.db.ModelUpdates db made.1
        if result2.2.2 ≠ none then (result2.1, {}, result2.2.2)
        else (result2.1, (s.db.ModelFirst result2.1 { ID := id } result2.2.1).1.ToUser, none)

/-- The method `(*dbSvc).AuthenticateUser`. -/
def AuthenticateUser (s : dbSvc σ) (db : σ) (U : User) : User × error :=
  if U.Password = "" ∧ U.Username = "" then ({}, some ErrInvalidUserObject)
  else
    let result := s.db.ModelFirst db { Username := U.Username } {}
    if result.2 = some gorm.ErrRecordNotFound then ({}, some ErrNotFound)
    else if result.2 ≠ none then ({}, result.2)
    else
      let cmp := result.1.ComparePassword s.hasher U.Password
      if cmp.2 ≠ none then ({}, cmp.2)
      else if cmp.1 = true then (result.1.ToUser, none)
      else ({}, some ErrAuthenticationFailed)

/-- The method `(*dbSvc).DeleteUser`. -/
def DeleteUser (s : dbSvc σ) (db : σ) (id : uuid.UUID) : σ × error :=
  s.db.Delete db {} id

/-- The method `(*dbSvc).GetUsers`. -/
def GetUsers (s : dbSvc σ) (db : σ) : List User × error :=
  let result := s.db.Find db
  if result.2 ≠ none then ([], result.2)
  else (result.1.map storedUser.ToUser, none)

end dbSvc

/-! ### The `users` table on a working database

The table is the list of its rows in insertion order, soft-deleted rows
included.  `id` is the primary key and `username` carries a unique index. -/

namespace sqlite

/-- The rows of table `users`. -/
abbrev Rows := List storedUser

/-- The primary key constraint of the table: no two rows share an `id`. -/
def PrimaryKey (rows : Rows) : Prop := (rows.map (fun r => r.ID)).Nodup

instance (rows : Rows) : Decidable (PrimaryKey rows) := by
  unfold PrimaryKey; infer_instance

/-- Scanning row `r` over `dest`: every column is written; the shadowed numeric
`ID` of the embedded `gorm.Model` is no column and keeps its value. -/
def scan (r dest : storedUser) : storedUser :=
  { r with Model := { r.Model with ID := dest.Model.ID } }

/-- The call `Create(&u)`: the hook `BeforeCreate` runs, the zero timestamps are set to
the current time, and the row is inserted unless its `id` or its `username` is
taken (by a live or a soft-deleted row), which the driver reports as a
constraint failure. -/
def Create (env : gorm.Env) (rows : Rows) (u : storedUser) : Rows × storedUser × error :=
  let u1 := u.BeforeCreate env.rand
  let u2 := { u1 with Model := { u1.Model with
    CreatedAt := if u1.Model.CreatedAt = 0 then env.now else u1.Model.CreatedAt
    UpdatedAt := if u1.Model.UpdatedAt = 0 then env.now else u1.Model.UpdatedAt } }
  if u2.ID ∈ rows.map (fun r => r.ID) ∨ u2.Username ∈ rows.map (fun r => r.Username) then
    (rows, u2, some GoError.sqlite_ErrConstraintUnique)
  else (rows ++ [u2], u2, none)

/-- The row `ORDER BY id LIMIT 1` selects from `cands`: one with the least `id`. -/
def least (cands : List storedUser) : Option storedUser :=
  cands.foldl (fun best r =>
    match best with
    | none => some r
    | some b => if r.ID < b.ID then some r else some b) none

/-- The call `Model(&m).First(&dest)`:
`SELECT * FROM users WHERE deleted_at IS NULL ORDER BY id LIMIT 1`, with the
condition `id = dest.ID` when `dest` carries a primary key.  The model `m` names
the table only: a query takes its primary key condition from the destination,
and the fields of `m` give no condition.  A row found is scanned over `dest`;
otherwise `dest` is left as it was and the error is `ErrRecordNotFound`. -/
def ModelFirst (rows : Rows) (_m dest : storedUser) : storedUser × error :=
  match least (rows.filter (fun r =>
    decide ((dest.ID = uuid.Nil ∨ r.ID = dest.ID) ∧ r.Model.DeletedAt = none))) with
  | some r => (scan r dest, none)
  | none => (dest, some gorm.ErrRecordNotFound)

/-- The call `Where(&cond).First(&dest)` with a struct `cond`: every non-zero column
field of `cond` gives an equality condition, a zero field gives none; then as
`ModelFirst`. -/
def WhereFirst (rows : Rows) (cond dest : storedUser) : storedUser × error :=
  match least (rows.filter (fun r => decide (
    (cond.Model.CreatedAt = 0 ∨ r.Model.CreatedAt = cond.Model.CreatedAt) ∧
    (cond.Model.UpdatedAt = 0 ∨ r.Model.UpdatedAt = cond.Model.UpdatedAt) ∧
    (cond.Model.DeletedAt = none ∨ r.Model.DeletedAt = cond.Model.DeletedAt) ∧
    (cond.ID = uuid.Nil ∨ r.ID = cond.ID) ∧
    (cond.Username = "" ∨ r.Username = cond.Username) ∧
    (cond.PasswordHash = "" ∨ r.PasswordHash = cond.PasswordHash) ∧
    (dest.ID = uuid.Nil ∨ r.ID = dest.ID) ∧ r.Model.DeletedAt = none))) with
  | some r => (scan r dest, none)
  | none => (dest, some gorm.ErrRecordNotFound)

/-- The `SET` part of `Updates(v)` with a struct `v`, applied to row `r`: only
the non-zero fields of `v` are written, and `updated_at` is set to the current
time.  (`id` is written too, with the value the `WHERE` part pins it to.) -/
def assign (now : Nat) (v r : storedUser) : storedUser :=
  { r with
    Model := { r.Model with
      CreatedAt := if v.Model.CreatedAt = 0 then r.Model.CreatedAt else v.Model.CreatedAt
      UpdatedAt := now
      DeletedAt := if v.Model.DeletedAt = none then r.Model.DeletedAt else v.Model.DeletedAt }
    Username := if v.Username = "" then r.Username else v.Username
    PasswordHash := if v.PasswordHash = "" then r.PasswordHash else v.PasswordHash }

/-- The call `Model(&u).Updates(u)`:
`UPDATE users SET ... WHERE deleted_at IS NULL AND id = u.ID`; the new
`updated_at` is written back to `u`.  A model without primary key gives no
condition and the call is refused with `ErrMissingWhereClause`.  The statement
fails as a whole when it would give a row the `username` of another row.
Matching no row is not an error. -/
def ModelUpdates (env : gorm.Env) (rows : Rows) (u : storedUser) : Rows × storedUser × error :=
  let u1 := { u with Model := { u.Model with UpdatedAt := env.now } }
  if u.ID = uuid.Nil then (rows, u1, some gorm.ErrMissingWhereClause)
  else if u.Username ≠ "" ∧ (∃ r ∈ rows, r.ID = u.ID ∧ r.Model.DeletedAt = none) ∧
      (∃ r ∈ rows, r.ID ≠ u.ID ∧ r.Username = u.Username) then
    (rows, u1, some GoError.sqlite_ErrConstraintUnique)
  else
    (rows.map (fun r =>
      if r.ID = u.ID ∧ r.Model.DeletedAt = none then assign env.now u r else r), u1, none)

/-- The call `Delete(&dest, "id = ?", id.String())` on a model with a `DeletedAt` field:
`UPDATE users SET deleted_at = now WHERE id = ? AND deleted_at IS NULL`, with
the further condition `id = dest.ID` when `dest` carries a primary key.
Matching no row is not an error. -/
def Delete (env : gorm.Env) (rows : Rows) (dest : storedUser) (id : uuid.UUID) : Rows × error :=
  (rows.map (fun r =>
    if r.ID = id ∧ (dest.ID = uuid.Nil ∨ r.ID = dest.ID) ∧ r.Model.DeletedAt = none
    then { r with Model := { r.Model with DeletedAt := some env.now } } else r), none)

/-- The call `Find(&users)`: `SELECT * FROM users WHERE deleted_at IS NULL`, each row
scanned over a zero `storedUser`. -/
def Find (rows : Rows) : List storedUser × error :=
  ((rows.filter (fun r => decide (r.Model.DeletedAt = none))).map (fun r => scan r {}), none)

end sqlite

/-- The store behind `NewSqliteDBService`, working without faults. -/
def sqlite (env : gorm.Env) : Store sqlite.Rows where
  Create := sqlite.Create env
  ModelFirst := sqlite.ModelFirst
  WhereFirst := sqlite.WhereFirst
  ModelUpdates := sqlite.ModelUpdates env
  Delete := sqlite.Delete env
  Find := sqlite.Find

/-- The service `NewSqliteDBService` builds, on a working database. -/
def sqliteSvc (a : argon2id.Funcs) (p : argon2id.Params) (env : gorm.Env) : dbSvc sqlite.Rows where
  hasher := a
  hashParams := p
  db := sqlite env

end authorization

/-! ## Package `todo` -/

namespace todo

/-- The struct `Todo` of `pkg/todo/service.go`. -/
structure Todo where
  CreatedAt : Nat := 0
  UpdatedAt : Nat := 0
  DeletedAt : Option Nat := none
  ID : uuid.UUID := uuid.Nil
  Title : String := ""
  Description : String := ""
  OwnerID : uuid.UUID := uuid.Nil
  deriving DecidableEq, Repr

/-- The hook `(*Todo).BeforeCreate`: a Todo without an id gets a fresh one; `r`
is what the random source delivers.  The hook never fails. -/
def Todo.BeforeCreate (t : Todo) (r : Nat) : Todo :=
  if t.ID = uuid.Nil then { t with ID := uuid.New r } else t

abbrev ErrPopulatedID : GoError := GoError.todo_ErrPopulatedID
abbrev ErrOwnerChanged : GoError := GoError.todo_ErrOwnerChanged
abbrev ErrOwnerMissing : GoError := GoError.todo_ErrOwnerMissing
abbrev ErrInconsistentIDs : GoError := GoError.todo_ErrInconsistentIDs
abbrev ErrAlreadyExists : GoError := GoError.todo_ErrAlreadyExists
abbrev ErrNotFound : GoError := GoError.todo_ErrNotFound
abbrev ErrInvalidUUID : GoError := GoError.todo_ErrInvalidUUID

/-- The calls `pkg/todo/db.go` makes on its `*gorm.DB`, over a store state `σ`.

* `Create db t` is `s.db.Create(&t)`: the new state, `t` as the call leaves it,
  and `result.Error`.
* `First db dest id` is `s.db.First(&dest, "id = ?", id.String())`: `dest` as
  the call leaves it, and `result.Error`.
* `ModelUpdates db cur` is `s.db.Model(&cur).Updates(cur)`.
* `Delete db dest id` is `s.db.Delete(&dest, "id = ?", id.String())`.
* `Find db` is `s.db.Find(&todos)` on a nil slice.
* `WhereFind db cond` is `s.db.Where(&cond).Find(&todos)` on a nil slice. -/
structure Store (σ : Type) where
  Create : σ → Todo → σ × Todo × error
  First : σ → Todo → uuid.UUID → Todo × error
  ModelUpdates : σ → Todo → σ × error
  Delete : σ → Todo → uuid.UUID → σ × error
  Find : σ → List Todo × error
  WhereFind : σ → Todo → List Todo × error

section dbSvc

variable {σ : Type}

/-- The method `(*dbSvc).AddTodo`. -/
def AddTodo (s : Store σ) (db : σ) (t : Todo) : σ × Todo × error :=
  if t.OwnerID = uuid.Nil then (db, {}, some ErrOwnerMissing)
  else
    let result := s.Create db t
    if result.2.2 ≠ none then (result.1, {}, result.2.2)
    else (result.1, result.2.1, none)

/-- The method `(*dbSvc).GetTodo`. -/
def GetTodo (s : Store σ) (db : σ) (id : uuid.UUID) : Todo × error :=
  let result := s.First db {} id
  if result.2 = some gorm.ErrRecordNotFound then ({}, some ErrNotFound)
  else (result.1, result.2)

/-- The method `(*dbSvc).UpdateTodo`. -/
def UpdateTodo (s : Store σ) (db : σ) (id : uuid.UUID) (t : Todo) : σ × Todo × error :=
  let t := if t.ID = uuid.Nil then { t with ID := id } else t
  if t.ID ≠ id then (db, {}, some ErrInconsistentIDs)
  else
    let got := GetTodo s db id
    if got.2 ≠ none then (db, {}, got.2)
    else
      let current := got.1
      if t.OwnerID ≠ uuid.Nil ∧ current.OwnerID ≠ t.OwnerID then (db, {}, some ErrOwnerChanged)
      else
        let current := { current with Title := t.Title, Description := t.Description }
        let result := s.ModelUpdates db current
        if result.2 ≠ none then (result.1, {}, none)
        else (result.1, (s.First result.1 t id).1, none)

/-- The method `(*dbSvc).DeleteTodo`. -/
def DeleteTodo (s : Store σ) (db : σ) (id : uuid.UUID) : σ × error :=
  s.Delete db {} id

/-- The method `(*dbSvc).GetTodos`. -/
def GetTodos (s : Store σ) (db : σ) : List Todo × error :=
  let result := s.Find db
  if result.2 ≠ none then ([], none) else (result.1, none)

/-- The method `(*dbSvc).GetTodosOwned`. -/
def GetTodosOwned (s : Store σ) (db : σ) (user : authorization.User) : List Todo × error :=
  let result := s.WhereFind db { OwnerID := user.ID }
  if result.2 ≠ none then ([], none) else (result.1, none)

end dbSvc

/-! ### The `todos` table on a working database

The table is the list of its rows in insertion order, soft-deleted rows
included.  `id` is the primary key. -/

namespace sqlite

/-- The rows of table `todos`. -/
abbrev Rows := List Todo

/-- The primary key constraint of the table: no two rows share an `id`. -/
def PrimaryKey (rows : Rows) : Prop := (rows.map (fun r => r.ID)).Nodup

instance (rows : Rows) : Decidable (PrimaryKey rows) := by
  unfold PrimaryKey; infer_instance

/-- The call `Create(&t)`: the hook `BeforeCreate` runs, the zero timestamps are set to
the current time, and the row is inserted unless its `id` is taken (by a live
or a soft-deleted row), which the driver reports as a constraint failure. -/
def Create (env : gorm.Env) (rows : Rows) (t : Todo) : Rows × Todo × error :=
  let t1 := t.BeforeCreate env.rand
  let t2 := { t1 with
    CreatedAt := if t1.CreatedAt = 0 then env.now else t1.CreatedAt
    UpdatedAt := if t1.UpdatedAt = 0 then env.now else t1.UpdatedAt }
  if t2.ID ∈ rows.map (fun r => r.ID) then (rows, t2, some GoError.sqlite_ErrConstraintUnique)
  else (rows ++ [t2], t2, none)

/-- The call `First(&dest, "id = ?", id.String())`:
`SELECT * FROM todos WHERE id = ? AND deleted_at IS NULL ORDER BY id LIMIT 1`,
with the further condition `id = dest.ID` when `dest` already carries a primary
key.  A row found is scanned over `dest`, all columns; otherwise `dest` is left
as it was and the error is `ErrRecordNotFound`. -/
def First (rows : Rows) (dest : Todo) (id : uuid.UUID) : Todo × error :=
  match rows.find? (fun r =>
    decide (r.ID = id ∧ (dest.ID = uuid.Nil ∨ r.ID = dest.ID) ∧ r.DeletedAt = none)) with
  | some r => (r, none)
  | none => (dest, some gorm.ErrRecordNotFound)

/-- The `SET` part of `Updates(v)` with a struct `v`, applied to row `r`: only
the non-zero fields of `v` are written, and `updated_at` is set to the current
time.  (`id` is written too, with the value the `WHERE` part pins it to.) -/
def assign (now : Nat) (v r : Todo) : Todo :=
  { r with
    CreatedAt := if v.CreatedAt = 0 then r.CreatedAt else v.CreatedAt
    UpdatedAt := now
    DeletedAt := if v.DeletedAt = none then r.DeletedAt else v.DeletedAt
    Title := if v.Title = "" then r.Title else v.Title
    Description := if v.Description = "" then r.Description else v.Description
    OwnerID := if v.OwnerID = uuid.Nil then r.OwnerID else v.OwnerID }

/-- The call `Model(&cur).Updates(cur)`:
`UPDATE todos SET ... WHERE deleted_at IS NULL AND id = cur.ID`.  A model
without primary key gives no condition and the call is refused with
`ErrMissingWhereClause`.  Matching no row is not an error. -/
def ModelUpdates (env : gorm.Env) (rows : Rows) (cur : Todo) : Rows × error :=
  if cur.ID = uuid.Nil then (rows, some gorm.ErrMissingWhereClause)
  else
    (rows.map (fun r =>
      if r.ID = cur.ID ∧ r.DeletedAt = none then assign env.now cur r else r), none)

/-- The call `Delete(&dest, "id = ?", id.String())` on a model with a `DeletedAt` field:
`UPDATE todos SET deleted_at = now WHERE id = ? AND deleted_at IS NULL`, with
the further condition `id = dest.ID` when `dest` carries a primary key.
Matching no row is not an error. -/
def Delete (env : gorm.Env) (rows : Rows) (dest : Todo) (id : uuid.UUID) : Rows × error :=
  (rows.map (fun r =>
    if r.ID = id ∧ (dest.ID = uuid.Nil ∨ r.ID = dest.ID) ∧ r.DeletedAt = none
    then { r with DeletedAt := some env.now } else r), none)

/-- The call `Find(&todos)`: `SELECT * FROM todos WHERE deleted_at IS NULL`. -/
def Find (rows : Rows) : List Todo × error :=
  (rows.filter (fun r => decide (r.DeletedAt = none)), none)

/-- The call `Where(&cond).Find(&todos)` with a struct `cond`: every non-zero field of
`cond` gives an equality condition, a zero field gives none. -/
def WhereFind (rows : Rows) (cond : Todo) : List Todo × error :=
  (rows.filter (fun r => decide (
    (cond.CreatedAt = 0 ∨ r.CreatedAt = cond.CreatedAt) ∧
    (cond.UpdatedAt = 0 ∨ r.UpdatedAt = cond.UpdatedAt) ∧
    (cond.DeletedAt = none ∨ r.DeletedAt = cond.DeletedAt) ∧
    (cond.ID = uuid.Nil ∨ r.ID = cond.ID) ∧
    (cond.Title = "" ∨ r.Title = cond.Title) ∧
    (cond.Description = "" ∨ r.Description = cond.Description) ∧
    (cond.OwnerID = uuid.Nil ∨ r.OwnerID = cond.OwnerID) ∧
    r.DeletedAt = none)), none)

end sqlite

/-- The store behind `NewSqliteDBService`, working without faults. -/
def sqlite (env : gorm.Env) : Store sqlite.Rows where
  Create := sqlite.Create env
  First := sqlite.First
  ModelUpdates := sqlite.ModelUpdates env
  Delete := sqlite.Delete env
  Find := sqlite.Find
  WhereFind := sqlite.WhereFind

/-- A later call on the service, of the kinds that follow a deletion: `GetTodo`,
`UpdateTodo` or `DeleteTodo`, with its arguments and, for the two that write,
what the store reads from its surroundings. -/
inductive Call where
  | GetTodo (id : uuid.UUID)
  | UpdateTodo (env : gorm.Env) (id : uuid.UUID) (t : Todo)
  | DeleteTodo (env : gorm.Env) (id : uuid.UUID)
  deriving DecidableEq, Repr

/-- The table after one call on a working database. -/
def Call.run (rows : sqlite.Rows) : Call → sqlite.Rows
  | Call.GetTodo _ => rows
  | Call.UpdateTodo env id t => (todo.UpdateTodo (sqlite env) rows id t).1
  | Call.DeleteTodo env id => (todo.DeleteTodo (sqlite env) rows id).1

/-- The table after a sequence of calls, first call first. -/
def runCalls (rows : sqlite.Rows) (calls : List Call) : sqlite.Rows :=
  calls.foldl Call.run rows

/-- No live row of the table carries the id: the Todo is absent or deleted. -/
def NoLive (id : uuid.UUID) (rows : sqlite.Rows) : Prop :=
  ∀ r ∈ rows, r.ID = id → r.DeletedAt ≠ none

end todo

/-! ## Transport: errors on the wire, requests and endpoints -/

/-- The text `err.Error()` of an error value.  For the `errors.New` variables of
the two packages it is the text in the source; for an error of a library it is
the text of the library where that is fixed, and a text that stands for it
otherwise. -/
def GoError.Error : GoError → String
  | GoError.todo_ErrPopulatedID => "id filled"
  | GoError.todo_ErrOwnerChanged => "owner_id changed"
  | GoError.todo_ErrOwnerMissing => "owner_id missing"
  | GoError.todo_ErrInconsistentIDs => "inconsistent ids"
  | GoError.todo_ErrAlreadyExists => "already exists"
  | GoError.todo_ErrNotFound => "not found"
  | GoError.todo_ErrInvalidUUID => "invalid uuid"
  | GoError.authorization_ErrInvalidUserObject => "invalid user"
  | GoError.authorization_ErrAuthenticationFailed => "authentication failed"
  | GoError.authorization_ErrIDMissing => "missing user identifier or username"
  | GoError.authorization_ErrInconsistentIDs => "inconsistent ids"
  | GoError.authorization_ErrInconsistentIDUserName => "inconsistent id and username"
  | GoError.authorization_ErrNotFound => "not found"
  | GoError.gorm_ErrRecordNotFound => "record not found"
  | GoError.gorm_ErrMissingWhereClause => "WHERE conditions required"
  | GoError.sqlite_ErrConstraintUnique => "UNIQUE constraint failed"
  | GoError.driver code => "driver error " ++ toString code
  | GoError.argon2id code => "argon2id error " ++ toString code

namespace json

/-- A JSON string as `encoding/json` writes it for a Go `string`, or for a
`uuid.UUID` (its canonical text). -/
inductive Value where
  | string (s : String)
  | uuid (u : uuid.UUID)
  deriving DecidableEq, Repr

/-- A JSON object with members of string kind, in the order written. -/
abbrev Object := List (String × Value)

end json

namespace http

def StatusOK : Nat := 200
def StatusBadRequest : Nat := 400
def StatusUnauthorized : Nat := 401
def StatusNotFound : Nat := 404
def StatusInternalServerError : Nat := 500
def StatusServiceUnavailable : Nat := 503

/-- What has been written to an `http.ResponseWriter`: the header fields set,
the status code of `WriteHeader`, and the JSON values encoded to the body. -/
structure ResponseWriter where
  Header : List (String × String) := []
  StatusCode : Option Nat := none
  Body : List json.Object := []
  deriving DecidableEq, Repr

/-- The call `w.Header().Set(key, value)`. -/
def ResponseWriter.HeaderSet (w : ResponseWriter) (key value : String) : ResponseWriter :=
  { w with Header := (w.Header.filter (fun kv => decide (kv.1 ≠ key))) ++ [(key, value)] }

/-- The call `w.WriteHeader(code)`: the first status code written stays. -/
def ResponseWriter.WriteHeader (w : ResponseWriter) (code : Nat) : ResponseWriter :=
  match w.StatusCode with
  | none => { w with StatusCode := some code }
  | some _ => w

/-- The call `json.NewEncoder(w).Encode(obj)`; a body written before any
`WriteHeader` fixes the status `200`. -/
def ResponseWriter.Encode (w : ResponseWriter) (obj : json.Object) : ResponseWriter :=
  { w with
    StatusCode := match w.StatusCode with
      | none => some StatusOK
      | some c => some c
    Body := w.Body ++ [obj] }

end http

namespace url

/-- The type `url.Values`, the parsed query string: keys with their values. -/
abbrev Values := List (String × List String)

/-- The method `Values.Has`. -/
def Values.Has (q : Values) (key : String) : Bool :=
  q.any (fun kv => decide (kv.1 = key))

/-- The method `Values.Get`: the first value under the key, or the empty
string. -/
def Values.Get (q : Values) (key : String) : String :=
  match q.find? (fun kv => decide (kv.1 = key)) with
  | some kv => kv.2.headD ""
  | none => ""

end url

namespace uuid

/-- The value of a hexadecimal digit. -/
def xvalue (c : Char) : Option Nat :=
  if 48 ≤ c.toNat ∧ c.toNat ≤ 57 then some (c.toNat - 48)
  else if 97 ≤ c.toNat ∧ c.toNat ≤ 102 then some (c.toNat - 87)
  else if 65 ≤ c.toNat ∧ c.toNat ≤ 70 then some (c.toNat - 55)
  else none

/-- The number a list of hexadecimal digits spells, most significant first. -/
def hexValue (cs : List Char) : Option Nat :=
  cs.foldl (fun acc c =>
    match acc, xvalue c with
    | some a, some v => some (16 * a + v)
    | _, _ => none) (some 0)

/-- What `uuid.Parse` does on the canonical spelling
`xxxxxxxx-xxxx-xxxx-xxxx-xxxxxxxxxxxx`; any other text is refused here (the
library admits three further spellings). -/
def parseCanonical (s : String) : Option UUID :=
  let cs := s.toList
  if cs.length = 36 ∧ cs.get? 8 = some '-' ∧ cs.get? 13 = some '-' ∧ cs.get? 18 = some '-' ∧
      cs.get? 23 = some '-' then
    hexValue (cs.take 8 ++ (cs.drop 9).take 4 ++ (cs.drop 14).take 4 ++ (cs.drop 19).take 4
      ++ cs.drop 24)
  else none

end uuid

namespace authorization

/-- The error variables of `pkg/authorization/service.go`: all the errors the
package defines. -/
def ErrVars : List GoError :=
  [ErrInvalidUserObject, ErrAuthenticationFailed, ErrIDMissing, ErrInconsistentIDs,
   ErrInconsistentIDUserName, ErrNotFound]

/-- What `encoding/json` writes for a `User`, by its struct tags `json:"id"`,
`json:"username"` and `json:"password,omitempty"`. -/
def User.json (u : User) : json.Object :=
  [("id", json.Value.uuid u.ID), ("username", json.Value.string u.Username)] ++
    (if u.Password = "" then [] else [("password", json.Value.string u.Password)])

namespace transport

/-- The function `encodeError` of `pkg/authorization/transport/http.go`. -/
def encodeError (err : GoError) (w : http.ResponseWriter) : http.ResponseWriter :=
  let w := w.HeaderSet "Content-Type" "application/json; charset=utf-8"
  let w :=
    if err = ErrInvalidUserObject then w.WriteHeader http.StatusBadRequest
    else if err = ErrAuthenticationFailed then w.WriteHeader http.StatusUnauthorized
    else w.WriteHeader http.StatusInternalServerError
  w.Encode [("error", json.Value.string err.Error)]

end transport

end authorization

namespace todo

/-- The function `encodeError` of `pkg/todo/transport.go`. -/
def encodeError (err : GoError) (w : http.ResponseWriter) : http.ResponseWriter :=
  let w := w.HeaderSet "Content-Type" "application/json; charset=utf-8"
  let w :=
    if err = ErrNotFound then w.WriteHeader http.StatusNotFound
    else if err = ErrInconsistentIDs then w.WriteHeader http.StatusBadRequest
    else if err = ErrOwnerMissing then w.WriteHeader http.StatusBadRequest
    else w.WriteHeader http.StatusInternalServerError
  w.Encode [("error", json.Value.string err.Error)]

/-- The interface `Service` of `pkg/todo/service.go`, over a state `σ` that
every method may read and write. -/
structure Service (σ : Type) where
  AddTodo : σ → Todo → σ × Todo × error
  GetTodo : σ → uuid.UUID → σ × Todo × error
  UpdateTodo : σ → uuid.UUID → Todo → σ × Todo × error
  DeleteTodo : σ → uuid.UUID → σ × error
  GetTodos : σ → σ × List Todo × error
  GetTodosOwned : σ → authorization.User → σ × List Todo × error
  ServiceStatus : σ → σ × Nat × error

/-- The calls `(*dbSvc).ServiceStatus` makes: `s.db.DB()`, of which the error
is kept, and `db.Ping()`. -/
structure Conn (σ : Type) where
  DB : σ → error
  Ping : σ → error

/-- The method `(*dbSvc).ServiceStatus`. -/
def ServiceStatus {σ : Type} (c : Conn σ) (db : σ) : Nat × error :=
  if c.DB db ≠ none then (http.StatusInternalServerError, c.DB db)
  else if c.Ping db ≠ none then (http.StatusServiceUnavailable, c.Ping db)
  else (http.StatusOK, none)

/-- The value `&dbSvc{db: db}` as a `Service`: the methods of `pkg/todo/db.go`;
those that only read leave the state as it is. -/
def dbSvc {σ : Type} (s : Store σ) (c : Conn σ) : Service σ where
  AddTodo := AddTodo s
  GetTodo := fun db id => (db, GetTodo s db id)
  UpdateTodo := UpdateTodo s
  DeleteTodo := DeleteTodo s
  GetTodos := fun db => (db, GetTodos s db)
  GetTodosOwned := fun db user => (db, GetTodosOwned s db user)
  ServiceStatus := fun db => (db, ServiceStatus c db)

/-- The connection of a working database: `DB()` and `Ping()` succeed. -/
def sqliteConn : Conn sqlite.Rows where
  DB := fun _ => none
  Ping := fun _ => none

structure addTodoRequest where
  Todo : Todo := {}
  deriving DecidableEq, Repr

structure addTodoResponse where
  Todo : Todo := {}
  Err : error := none
  deriving DecidableEq, Repr

structure getTodoRequest where
  ID : uuid.UUID := uuid.Nil
  deriving DecidableEq, Repr

structure getTodoResponse where
  Todo : Todo := {}
  Err : error := none
  deriving DecidableEq, Repr

structure updateTodoRequest where
  ID : uuid.UUID := uuid.Nil
  Todo : Todo := {}
  deriving DecidableEq, Repr

structure updateTodoResponse where
  Todo : Todo := {}
  Err : error := none
  deriving DecidableEq, Repr

structure deleteTodoRequest where
  ID : uuid.UUID := uuid.Nil
  deriving DecidableEq, Repr

structure deleteTodoResponse where
  Err : error := none
  deriving DecidableEq, Repr

structure getTodosRequest where
  OwnerID : uuid.UUID := uuid.Nil
  deriving DecidableEq, Repr

structure getTodosResponse where
  Todos : List Todo := []
  Err : error := none
  deriving DecidableEq, Repr

structure serviceStatusRequest where
  deriving DecidableEq, Repr

structure serviceStatusResponse where
  Code : Nat := 0
  Err : error := none
  deriving DecidableEq, Repr

/-- A request handed to an endpoint as `interface{}`: one of the request types
of `pkg/todo/reqResMap.go`. -/
inductive Request where
  | addTodo (r : addTodoRequest)
  | getTodo (r : getTodoRequest)
  | updateTodo (r : updateTodoRequest)
  | deleteTodo (r : deleteTodoRequest)
  | getTodos (r : getTodosRequest)
  | serviceStatus (r : serviceStatusRequest)
  deriving DecidableEq, Repr

/-- A response an endpoint returns as `interface{}`: one of the response types
of `pkg/todo/reqResMap.go`. -/
inductive Response where
  | addTodo (r : addTodoResponse)
  | getTodo (r : getTodoResponse)
  | updateTodo (r : updateTodoResponse)
  | deleteTodo (r : deleteTodoResponse)
  | getTodos (r : getTodosResponse)
  | serviceStatus (r : serviceStatusResponse)
  deriving DecidableEq, Repr

/-- The result of a call that may panic, as a failed type assertion does. -/
inductive Outcome (α : Type) where
  | ok (a : α)
  | panic
  deriving DecidableEq, Repr

/-- The type `endpoint.Endpoint`: from a request to a response and an error,
over the state of the service. -/
abbrev Endpoint (σ : Type) := σ → Request → Outcome (σ × Response × error)

/-- The function `decodeHTTPGetTodosRequest`, on the query `r.URL.Query()`;
`parse` is `uuid.Parse`, with `none` for a text it refuses.  The result is the
request, `nil` being `none`, and the error. -/
def decodeHTTPGetTodosRequest (parse : String → Option uuid.UUID) (q : url.Values) :
    Option Request × error :=
  if q.Has "owner" = true then
    match parse (q.Get "owner") with
    | none => (none, some ErrInvalidUUID)
    | some u => (some (Request.getTodos { OwnerID := u }), none)
  else (some (Request.getTodos {}), none)

/-- The function `makeGetTodosEndpoint`. -/
def makeGetTodosEndpoint {σ : Type} (s : Service σ) : Endpoint σ :=
  fun db request =>
    match request with
    | Request.getTodos req =>
      if req.OwnerID = uuid.Nil then
        let r := s.GetTodos db
        Outcome.ok (r.1, Response.getTodos { Todos := r.2.1, Err := r.2.2 }, none)
      else
        let r := s.GetTodosOwned db { ID := req.OwnerID }
        Outcome.ok (r.1, Response.getTodos { Todos := r.2.1, Err := r.2.2 }, none)
    | _ => Outcome.panic

/-- The function `makeAddTodoEndpoint`. -/
def makeAddTodoEndpoint {σ : Type} (s : Service σ) : Endpoint σ :=
  fun db request =>
    match request with
    | Request.addTodo req =>
      let r := s.AddTodo db req.Todo
      Outcome.ok (r.1, Response.addTodo { Todo := r.2.1, Err := r.2.2 }, none)
    | _ => Outcome.panic

/-- The function `makeGetTodoEndpoint`. -/
def makeGetTodoEndpoint {σ : Type} (s : Service σ) : Endpoint σ :=
  fun db request =>
    match request with
    | Request.getTodo req =>
      let r := s.GetTodo db req.ID
      Outcome.ok (r.1, Response.getTodo { Todo := r.2.1, Err := r.2.2 }, none)
    | _ => Outcome.panic

/-- The function `makeUpdateTodoEndpoint`. -/
def makeUpdateTodoEndpoint {σ : Type} (s : Service σ) : Endpoint σ :=
  fun db request =>
    match request with
    | Request.updateTodo req =>
      let r := s.UpdateTodo db req.ID req.Todo
      Outcome.ok (r.1, Response.updateTodo { Todo := r.2.1, Err := r.2.2 }, none)
    | _ => Outcome.panic

/-- The function `makeDeleteTodoEndpoint`. -/
def makeDeleteTodoEndpoint {σ : Type} (s : Service σ) : Endpoint σ :=
  fun db request =>
    match request with
    | Request.deleteTodo req =>
      let r := s.DeleteTodo db req.ID
      Outcome.ok (r.1, Response.deleteTodo { Err := r.2 }, none)
    | _ => Outcome.panic

/-- The function `makeServiceStatusEndpoint`. -/
def makeServiceStatusEndpoint {σ : Type} (s : Service σ) : Endpoint σ :=
  fun db request =>
    match request with
    | Request.serviceStatus _ =>
      let r := s.ServiceStatus db
      Outcome.ok (r.1, Response.serviceStatus { Code := r.2.1, Err := r.2.2 }, none)
    | _ => Outcome.panic

/-- The struct `Endpoints`; a field that is not set is `nil`, here `none`. -/
structure Endpoints (σ : Type) where
  AddTodoEndpoint : Option (Endpoint σ) := none
  GetTodoEndpoint : Option (Endpoint σ) := none
  UpdateTodoEndpoint : Option (Endpoint σ) := none
  DeleteTodoEndpoint : Option (Endpoint σ) := none
  GetTodosEndpoint : Option (Endpoint σ) := none
  GetTodosOwnedEndpoint : Option (Endpoint σ) := none
  ServiceStatusEndpoint : Option (Endpoint σ) := none

/-- The function `MakeServerEndpoints`. -/
def MakeServerEndpoints {σ : Type} (s : Service σ) : Endpoints σ where
  AddTodoEndpoint := some (makeAddTodoEndpoint s)
  GetTodoEndpoint := some (makeGetTodoEndpoint s)
  UpdateTodoEndpoint := some (makeUpdateTodoEndpoint s)
  DeleteTodoEndpoint := some (makeDeleteTodoEndpoint s)
  GetTodosEndpoint := some (makeGetTodosEndpoint s)
  ServiceStatusEndpoint := some (makeServiceStatusEndpoint s)

/-- The call of an endpoint field: calling a nil function panics. -/
def callEndpoint {σ : Type} (e : Option (Endpoint σ)) (db : σ) (request : Request) :
    Outcome (σ × Response × error) :=
  match e with
  | none => Outcome.panic
  | some f => f db request

/-- The method `Endpoints.AddTodo`. -/
def Endpoints.AddTodo {σ : Type} (e : Endpoints σ) (db : σ) (t : Todo) :
    Outcome (σ × Todo × error) :=
  match callEndpoint e.AddTodoEndpoint db (Request.addTodo { Todo := t }) with
  | Outcome.panic => Outcome.panic
  | Outcome.ok (db1, response, err) =>
    if err ≠ none then Outcome.ok (db1, {}, err)
    else
      match response with
      | Response.addTodo resp => Outcome.ok (db1, resp.Todo, resp.Err)
      | _ => Outcome.panic

/-- The method `Endpoints.GetTodo`. -/
def Endpoints.GetTodo {σ : Type} (e : Endpoints σ) (db : σ) (id : uuid.UUID) :
    Outcome (σ × Todo × error) :=
  match callEndpoint e.GetTodoEndpoint db (Request.getTodo { ID := id }) with
  | Outcome.panic => Outcome.panic
  | Outcome.ok (db1, response, err) =>
    if err ≠ none then Outcome.ok (db1, {}, none)
    else
      match response with
      | Response.getTodo resp => Outcome.ok (db1, resp.Todo, resp.Err)
      | _ => Outcome.panic

/-- The method `Endpoints.UpdateTodo`. -/
def Endpoints.UpdateTodo {σ : Type} (e : Endpoints σ) (db : σ) (id : uuid.UUID) (t : Todo) :
    Outcome (σ × Todo × error) :=
  match callEndpoint e.UpdateTodoEndpoint db (Request.updateTodo { ID := id, Todo := t }) with
  | Outcome.panic => Outcome.panic
  | Outcome.ok (db1, response, err) =>
    if err ≠ none then Outcome.ok (db1, {}, err)
    else
      match response with
      | Response.updateTodo resp => Outcome.ok (db1, resp.Todo, resp.Err)
      | _ => Outcome.panic

/-- The method `Endpoints.DeleteTodo`; the response is asserted to be an
`updateTodoResponse`, as in the source. -/
def Endpoints.DeleteTodo {σ : Type} (e : Endpoints σ) (db : σ) (id : uuid.UUID) :
    Outcome (σ × error) :=
  match callEndpoint e.DeleteTodoEndpoint db (Request.deleteTodo { ID := id }) with
  | Outcome.panic => Outcome.panic
  | Outcome.ok (db1, response, err) =>
    if err ≠ none then Outcome.ok (db1, err)
    else
      match response with
      | Response.updateTodo resp => Outcome.ok (db1, resp.Err)
      | _ => Outcome.panic

/-- The method `Endpoints.GetTodos`; the endpoint called is
`e.UpdateTodoEndpoint`, as in the source. -/
def Endpoints.GetTodos {σ : Type} (e : Endpoints σ) (db : σ) :
    Outcome (σ × List Todo × error) :=
  match callEndpoint e.UpdateTodoEndpoint db (Request.getTodos {}) with
  | Outcome.panic => Outcome.panic
  | Outcome.ok (db1, response, err) =>
    if err ≠ none then Outcome.ok (db1, [], err)
    else
      match response with
      | Response.getTodos resp => Outcome.ok (db1, resp.Todos, resp.Err)
      | _ => Outcome.panic

/-- The method `Endpoints.GetTodosOwned`; the endpoint called is
`e.UpdateTodoEndpoint`, as in the source. -/
def Endpoints.GetTodosOwned {σ : Type} (e : Endpoints σ) (db : σ) (user : authorization.User) :
    Outcome (σ × List Todo × error) :=
  match callEndpoint e.UpdateTodoEndpoint db (Request.getTodos { OwnerID := user.ID }) with
  | Outcome.panic => Outcome.panic
  | Outcome.ok (db1, response, err) =>
    if err ≠ none then Outcome.ok (db1, [], err)
    else
      match response with
      | Response.getTodos resp => Outcome.ok (db1, resp.Todos, resp.Err)
      | _ => Outcome.panic

/-- The method `Endpoints.ServiceStatus`. -/
def Endpoints.ServiceStatus {σ : Type} (e : Endpoints σ) (db : σ) :
    Outcome (σ × Nat × error) :=
  match callEndpoint e.ServiceStatusEndpoint db (Request.serviceStatus {}) with
  | Outcome.panic => Outcome.panic
  | Outcome.ok (db1, response, err) =>
    if err ≠ none then Outcome.ok (db1, 0, err)
    else
      match response with
      | Response.serviceStatus resp => Outcome.ok (db1, resp.Code, resp.Err)
      | _ => Outcome.panic

end todo

/-! ## Facts about the `todos` table -/

namespace todo

theorem find_by_primary_key {rows : sqlite.Rows} (hpk : sqlite.PrimaryKey rows) {r : Todo}
    (hr : r ∈ rows) {id : uuid.UUID} (hid : r.ID = id) (q : Todo → Prop) [DecidablePred q]
    (hq : q r) :
    rows.find? (fun x => decide (x.ID = id ∧ q x)) = some r := by
  subst hid
  induction rows with
  | nil => simp at hr
  | cons a l ih =>
    simp only [sqlite.PrimaryKey, List.map_cons, List.nodup_cons] at hpk
    rcases List.mem_cons.1 hr with rfl | hl
    · simp [List.find?_cons, hq]
    · have hne : a.ID ≠ r.ID := fun h => hpk.1 (h ▸ List.mem_map_of_mem (fun x => x.ID) hl)
      simp only [List.find?_cons, hne, false_and, decide_False]
      exact ih hpk.2 hl

theorem row_of_primary_key {rows : sqlite.Rows} (hpk : sqlite.PrimaryKey rows) {a b : Todo}
    (ha : a ∈ rows) (hb : b ∈ rows) (h : a.ID = b.ID) : a = b :=
  List.inj_on_of_nodup_map hpk ha hb h

/-- A live row is what `First` on a zero destination finds under its id. -/
theorem First_of_mem {rows : sqlite.Rows} (hpk : sqlite.PrimaryKey rows) {r : Todo}
    (hr : r ∈ rows) (hlive : r.DeletedAt = none) :
    sqlite.First rows {} r.ID = (r, none) := by
  have h := find_by_primary_key hpk hr rfl (fun x => x.DeletedAt = none) hlive
  simp only [sqlite.First, uuid.Nil, true_or, true_and]
  rw [h]

/-- What `First` finds is a live row of the table with the id asked for, and
with the id of the destination if that has one. -/
theorem First_found {rows : sqlite.Rows} {dest r : Todo} {id : uuid.UUID} {e : error}
    (h : sqlite.First rows dest id = (r, e)) (he : e = none) :
    r ∈ rows ∧ r.ID = id ∧ r.DeletedAt = none := by
  unfold sqlite.First at h
  split at h
  · next x hx =>
    have hm := List.mem_of_find?_eq_some hx
    have hp := List.find?_some hx
    simp only [decide_eq_true_eq] at hp
    cases h
    exact ⟨hm, hp.1, hp.2.2⟩
  · cases h; cases he

theorem GetTodo_sqlite (env : gorm.Env) (rows : sqlite.Rows) (id : uuid.UUID) :
    GetTodo (sqlite env) rows id =
      match rows.find? (fun r => decide (r.ID = id ∧ r.DeletedAt = none)) with
      | some r => (r, none)
      | none => ({}, some ErrNotFound) := by
  simp only [GetTodo, sqlite, sqlite.First, uuid.Nil, true_or, true_and]
  cases List.find? (fun r => decide (r.ID = id ∧ r.DeletedAt = none)) rows <;> simp

/-- The body of `UpdateTodo` for a patch whose id is nil or the id of the call. -/
theorem UpdateTodo_consistent {σ : Type} (s : Store σ) (db : σ) (id : uuid.UUID) (t : Todo)
    (h : t.ID = uuid.Nil ∨ t.ID = id) :
    UpdateTodo s db id t =
      if (GetTodo s db id).2 ≠ none then (db, {}, (GetTodo s db id).2)
      else if t.OwnerID ≠ uuid.Nil ∧ (GetTodo s db id).1.OwnerID ≠ t.OwnerID then
        (db, {}, some ErrOwnerChanged)
      else if (s.ModelUpdates db
          { (GetTodo s db id).1 with Title := t.Title, Description := t.Description }).2 ≠ none then
        ((s.ModelUpdates db
          { (GetTodo s db id).1 with Title := t.Title, Description := t.Description }).1, {}, none)
      else
        ((s.ModelUpdates db
          { (GetTodo s db id).1 with Title := t.Title, Description := t.Description }).1,
         (s.First (s.ModelUpdates db
          { (GetTodo s db id).1 with Title := t.Title, Description := t.Description }).1
            { t with ID := id } id).1, none) := by
  obtain ⟨c, u, d, i, ti, de, o⟩ := t
  by_cases h0 : i = uuid.Nil
  · subst h0
    simp [UpdateTodo]
  · have hi : i = id := by
      rcases h with h | h
      · exact absurd h h0
      · exact h
    subst hi
    simp [UpdateTodo, h0]

/-- The guard of `UpdateTodo`: a patch with an id of its own that is not the id
of the call is refused before the store is touched. -/
theorem UpdateTodo_inconsistent {σ : Type} (s : Store σ) (db : σ) (id : uuid.UUID) (t : Todo)
    (h0 : t.ID ≠ uuid.Nil) (h1 : t.ID ≠ id) :
    UpdateTodo s db id t = (db, {}, some ErrInconsistentIDs) := by
  simp [UpdateTodo, h0, h1]

/-- The table after `Model(&cur).Updates(cur)` for a row `cur` read from it. -/
theorem ModelUpdates_frame (env : gorm.Env) {rows : sqlite.Rows} (hpk : sqlite.PrimaryKey rows)
    {c : Todo} (hc : c ∈ rows) (ti de : String) :
    List.Forall₂
      (fun before after => after.ID = before.ID ∧ after.OwnerID = before.OwnerID ∧
        (before.ID ≠ c.ID → after = before))
      rows (sqlite.ModelUpdates env rows { c with Title := ti, Description := de }).1 := by
  unfold sqlite.ModelUpdates
  split
  · exact List.forall₂_same.2 (fun x _ => ⟨rfl, rfl, fun _ => rfl⟩)
  · refine List.forall₂_map_right_iff.2 (List.forall₂_same.2 (fun x hx => ?_))
    by_cases hx2 : x.ID = c.ID ∧ x.DeletedAt = none
    · have hxc : x = c := row_of_primary_key hpk hx hc hx2.1
      subst hxc
      rw [if_pos hx2]
      refine ⟨rfl, ?_, fun h => absurd rfl h⟩
      show (if x.OwnerID = uuid.Nil then x.OwnerID else x.OwnerID) = x.OwnerID
      split <;> rfl
    · beta_reduce
      rw [if_neg hx2]
      exact ⟨rfl, rfl, fun _ => rfl⟩

/-- The table after `DeleteTodo`: the live rows under the id are marked. -/
theorem DeleteTodo_sqlite (env : gorm.Env) (rows : sqlite.Rows) (id : uuid.UUID) :
    DeleteTodo (sqlite env) rows id =
      (rows.map (fun r =>
        if r.ID = id ∧ r.DeletedAt = none then { r with DeletedAt := some env.now } else r),
       none) := by
  simp [DeleteTodo, sqlite, sqlite.Delete, uuid.Nil]

end todo

/-! ## Facts about the `users` table -/

namespace authorization

/-- The table after `DeleteUser`: the live rows under the id are marked. -/
theorem DeleteUser_sqlite (a : argon2id.Funcs) (p : argon2id.Params) (env : gorm.Env)
    (rows : sqlite.Rows) (id : uuid.UUID) :
    DeleteUser (sqliteSvc a p env) rows id =
      (rows.map (fun r =>
        if r.ID = id ∧ r.Model.DeletedAt = none then
          { r with Model := { r.Model with DeletedAt := some env.now } } else r),
       none) := by
  simp [DeleteUser, sqliteSvc, sqlite, sqlite.Delete, uuid.Nil]

end authorization

/-! ## Deleted Todos stay deleted -/

namespace todo

theorem GetTodo_of_NoLive (env : gorm.Env) {rows : sqlite.Rows} {id : uuid.UUID}
    (h : NoLive id rows) : GetTodo (sqlite env) rows id = ({}, some ErrNotFound) := by
  have hf : rows.find? (fun r => decide (r.ID = id ∧ r.DeletedAt = none)) = none := by
    apply List.find?_eq_none.2
    intro r hr
    simp only [decide_eq_true_eq, not_and]
    exact fun hid => h r hr hid
  rw [GetTodo_sqlite, hf]

theorem UpdateTodo_of_NoLive (env : gorm.Env) {rows : sqlite.Rows} {id : uuid.UUID}
    (h : NoLive id rows) (t : Todo) (hid : t.ID = uuid.Nil ∨ t.ID = id) :
    UpdateTodo (sqlite env) rows id t = (rows, {}, some ErrNotFound) := by
  rw [UpdateTodo_consistent _ _ _ _ hid, GetTodo_of_NoLive env h]
  simp

theorem NoLive_DeleteTodo (env : gorm.Env) (rows : sqlite.Rows) (id : uuid.UUID) :
    NoLive id (DeleteTodo (sqlite env) rows id).1 := by
  rw [DeleteTodo_sqlite]
  intro r hr hid
  obtain ⟨x, -, rfl⟩ := List.mem_map.1 hr
  by_cases hc : x.ID = id ∧ x.DeletedAt = none
  · simp [hc]
  · rw [if_neg hc] at hid ⊢
    exact fun hl => hc ⟨hid, hl⟩

/-- Every row of the table after `Model(&cur).Updates(cur)` stems from a row
before with the same id, and a deleted row is not touched. -/
theorem ModelUpdates_rows (env : gorm.Env) (rows : sqlite.Rows) (cur : Todo) :
    ∀ r ∈ (sqlite.ModelUpdates env rows cur).1,
      ∃ x ∈ rows, r.ID = x.ID ∧ (x.DeletedAt ≠ none → r = x) := by
  intro r hr
  unfold sqlite.ModelUpdates at hr
  split at hr
  · exact ⟨r, hr, rfl, fun _ => rfl⟩
  · obtain ⟨x, hx, rfl⟩ := List.mem_map.1 hr
    refine ⟨x, hx, ?_, ?_⟩
    · split <;> rfl
    · intro hd
      rw [if_neg (fun hc => hd hc.2)]

/-- The table `UpdateTodo` leaves is the one before or the one its `Updates`
call leaves. -/
theorem UpdateTodo_table {σ : Type} (s : Store σ) (db : σ) (id : uuid.UUID) (t : Todo) :
    (UpdateTodo s db id t).1 = db ∨ ∃ cur, (UpdateTodo s db id t).1 = (s.ModelUpdates db cur).1 := by
  by_cases hc : t.ID = uuid.Nil ∨ t.ID = id
  · rw [UpdateTodo_consistent _ _ _ _ hc]
    split
    · exact Or.inl rfl
    · split
      · exact Or.inl rfl
      · split
        · exact Or.inr ⟨_, rfl⟩
        · exact Or.inr ⟨_, rfl⟩
  · have h0 : t.ID ≠ uuid.Nil := fun h => hc (Or.inl h)
    have h1 : t.ID ≠ id := fun h => hc (Or.inr h)
    rw [UpdateTodo_inconsistent _ _ _ _ h0 h1]
    exact Or.inl rfl

theorem NoLive_run {id : uuid.UUID} {rows : sqlite.Rows} (h : NoLive id rows) (c : Call) :
    NoLive id (Call.run rows c) := by
  cases c with
  | GetTodo j => exact h
  | UpdateTodo env j t =>
    show NoLive id (UpdateTodo (sqlite env) rows j t).1
    rcases UpdateTodo_table (sqlite env) rows j t with he | ⟨cur, he⟩
    · rw [he]; exact h
    · rw [he]
      intro r hr hid
      obtain ⟨x, hx, hxi, hxd⟩ := ModelUpdates_rows env rows cur r hr
      have hdead : x.DeletedAt ≠ none := h x hx (hxi ▸ hid)
      rw [hxd hdead]
      exact hdead
  | DeleteTodo env j =>
    show NoLive id (DeleteTodo (sqlite env) rows j).1
    rw [DeleteTodo_sqlite]
    intro r hr hid
    obtain ⟨x, hx, rfl⟩ := List.mem_map.1 hr
    by_cases hc : x.ID = j ∧ x.DeletedAt = none
    · simp [hc]
    · rw [if_neg hc] at hid ⊢
      exact h x hx hid

theorem NoLive_runCalls {id : uuid.UUID} (calls : List Call) :
    ∀ {rows : sqlite.Rows}, NoLive id rows → NoLive id (runCalls rows calls) := by
  induction calls with
  | nil => intro rows h; exact h
  | cons c cs ih =>
    intro rows h
    exact ih (NoLive_run h c)

theorem GetTodos_sqlite (env : gorm.Env) (rows : sqlite.Rows) :
    GetTodos (sqlite env) rows = (rows.filter (fun r => decide (r.DeletedAt = none)), none) := by
  simp [GetTodos, sqlite, sqlite.Find]

theorem GetTodosOwned_sqlite (env : gorm.Env) (rows : sqlite.Rows) (u : authorization.User) :
    GetTodosOwned (sqlite env) rows u =
      (rows.filter (fun r =>
        decide ((u.ID = uuid.Nil ∨ r.OwnerID = u.ID) ∧ r.DeletedAt = none)), none) := by
  simp [GetTodosOwned, sqlite, sqlite.WhereFind, uuid.Nil]

/-- Reading another id after a deletion gives what it gave before. -/
theorem GetTodo_after_DeleteTodo (env e : gorm.Env) (rows : sqlite.Rows) {id j : uuid.UUID}
    (hj : j ≠ id) :
    GetTodo (sqlite e) (DeleteTodo (sqlite env) rows id).1 j = GetTodo (sqlite e) rows j := by
  rw [GetTodo_sqlite, GetTodo_sqlite, DeleteTodo_sqlite]
  induction rows with
  | nil => rfl
  | cons a l ih =>
    simp only [List.map_cons, List.find?_cons]
    by_cases ha : a.ID = id
    · have haj : ¬ a.ID = j := fun h => hj (h.symm.trans ha)
      have h1 : decide (a.ID = j ∧ a.DeletedAt = none) = false := by simp [haj]
      have h2 : decide ((if a.ID = id ∧ a.DeletedAt = none then
          { a with DeletedAt := some env.now } else a).ID = j ∧
          (if a.ID = id ∧ a.DeletedAt = none then
          { a with DeletedAt := some env.now } else a).DeletedAt = none) = false := by
        split <;> simp [haj]
      rw [h1, h2]
      exact ih
    · have hn : ¬ (a.ID = id ∧ a.DeletedAt = none) := fun h => ha h.1
      rw [if_neg hn]
      cases decide (a.ID = j ∧ a.DeletedAt = none)
      · exact ih
      · rfl

/-- The list of all Todos after a deletion: the list before without the id. -/
theorem GetTodos_after_DeleteTodo (env e : gorm.Env) (rows : sqlite.Rows) (id : uuid.UUID) :
    (GetTodos (sqlite e) (DeleteTodo (sqlite env) rows id).1).1
      = (GetTodos (sqlite e) rows).1.filter (fun t => decide (t.ID ≠ id)) := by
  rw [GetTodos_sqlite, GetTodos_sqlite, DeleteTodo_sqlite]
  induction rows with
  | nil => rfl
  | cons a l ih =>
    simp only [List.map_cons] at ih ⊢
    by_cases hl : a.DeletedAt = none
    · by_cases ha : a.ID = id
      · rw [if_pos ⟨ha, hl⟩]
        simpa [List.filter_cons, hl, ha] using ih
      · rw [if_neg (fun h => ha h.1)]
        simpa [List.filter_cons, hl, ha] using ih
    · rw [if_neg (fun h => hl h.2)]
      simpa [List.filter_cons, hl] using ih

end todo

/-! ## The primary key is kept by every call of the service -/

namespace todo

theorem PrimaryKey_empty : sqlite.PrimaryKey [] := by
  simp [sqlite.PrimaryKey]

theorem PrimaryKey_Create (env : gorm.Env) {rows : sqlite.Rows} (t : Todo)
    (hpk : sqlite.PrimaryKey rows) : sqlite.PrimaryKey (sqlite.Create env rows t).1 := by
  unfold sqlite.Create
  dsimp only
  split
  · exact hpk
  · next hin =>
    simp only [sqlite.PrimaryKey, List.map_append, List.map_cons, List.map_nil]
    refine List.Nodup.append hpk (List.nodup_singleton _) ?_
    intro x hx hx1
    rw [List.mem_singleton] at hx1
    exact hin (hx1 ▸ hx)

/-- The table `AddTodo` leaves is the one before or the one its `Create` call
leaves. -/
theorem AddTodo_table {σ : Type} (s : Store σ) (db : σ) (t : Todo) :
    (AddTodo s db t).1 = db ∨ (AddTodo s db t).1 = (s.Create db t).1 := by
  unfold AddTodo
  split
  · exact Or.inl rfl
  · dsimp only
    split
    · exact Or.inr rfl
    · exact Or.inr rfl

theorem PrimaryKey_AddTodo (env : gorm.Env) {rows : sqlite.Rows} (t : Todo)
    (hpk : sqlite.PrimaryKey rows) : sqlite.PrimaryKey (AddTodo (sqlite env) rows t).1 := by
  rcases AddTodo_table (sqlite env) rows t with he | he
  · rw [he]; exact hpk
  · rw [he]; exact PrimaryKey_Create env t hpk

theorem ModelUpdates_ids (env : gorm.Env) (rows : sqlite.Rows) (cur : Todo) :
    (sqlite.ModelUpdates env rows cur).1.map (fun r => r.ID) = rows.map (fun r => r.ID) := by
  unfold sqlite.ModelUpdates
  split
  · rfl
  · rw [List.map_map]
    refine List.map_congr_left (fun r _ => ?_)
    show (if r.ID = cur.ID ∧ r.DeletedAt = none then sqlite.assign env.now cur r else r).ID = r.ID
    split <;> rfl

theorem PrimaryKey_UpdateTodo (env : gorm.Env) {rows : sqlite.Rows} (id : uuid.UUID) (t : Todo)
    (hpk : sqlite.PrimaryKey rows) : sqlite.PrimaryKey (UpdateTodo (sqlite env) rows id t).1 := by
  rcases UpdateTodo_table (sqlite env) rows id t with he | ⟨cur, he⟩
  · rw [he]; exact hpk
  · rw [he]
    show ((sqlite.ModelUpdates env rows cur).1.map (fun r => r.ID)).Nodup
    rw [ModelUpdates_ids]
    exact hpk

theorem PrimaryKey_DeleteTodo (env : gorm.Env) {rows : sqlite.Rows} (id : uuid.UUID)
    (hpk : sqlite.PrimaryKey rows) : sqlite.PrimaryKey (DeleteTodo (sqlite env) rows id).1 := by
  rw [DeleteTodo_sqlite]
  have hids : (rows.map (fun r =>
      if r.ID = id ∧ r.DeletedAt = none then { r with DeletedAt := some env.now } else r)).map
        (fun r => r.ID) = rows.map (fun r => r.ID) := by
    rw [List.map_map]
    refine List.map_congr_left (fun r _ => ?_)
    show (if r.ID = id ∧ r.DeletedAt = none then
      { r with DeletedAt := some env.now } else r).ID = r.ID
    split <;> rfl
  unfold sqlite.PrimaryKey
  rw [hids]
  exact hpk

end todo

namespace authorization

/-- For a patch whose id is nil or the id of the call, an error of the first
store call of `UpdateUser` is returned as it is, on any store. -/
theorem UpdateUser_first_error {σ : Type} (s : dbSvc σ) (db : σ) (id : uuid.UUID) (U : User)
    (hid : U.ID = uuid.Nil ∨ U.ID = id) (e : GoError)
    (he : (s.db.ModelFirst db { ID := id } {}).2 = some e) :
    UpdateUser s db id U = (db, {}, some e) := by
  obtain ⟨i, n, pw⟩ := U
  by_cases h0 : i = uuid.Nil
  · subst h0
    simp [UpdateUser, he]
  · have h1 : i = id := by
      rcases hid with h | h
      · exact absurd h h0
      · exact h
    subst h1
    simp [UpdateUser, h0, he]

end authorization

namespace todo

/-- What `UpdateTodo` does when the patch brings a Title and a Description that
are not empty: both are written to the stored Todo `r`, and the Todo returned,
which `GetTodo` returns afterwards too, carries them with the id and owner of
`r`. -/
theorem UpdateTodo_applies (env e : gorm.Env) (rows : sqlite.Rows) (r patch : Todo)
    (hpk : sqlite.PrimaryKey rows) (hr : r ∈ rows) (hlive : r.DeletedAt = none)
    (hnil : r.ID ≠ uuid.Nil) (hid : patch.ID = uuid.Nil ∨ patch.ID = r.ID)
    (ho : patch.OwnerID = uuid.Nil ∨ patch.OwnerID = r.OwnerID)
    (ht : patch.Title ≠ "") (hd : patch.Description ≠ "") :
    (UpdateTodo (sqlite env) rows r.ID patch).2.2 = none ∧
    (UpdateTodo (sqlite env) rows r.ID patch).2.1.Title = patch.Title ∧
    (UpdateTodo (sqlite env) rows r.ID patch).2.1.Description = patch.Description ∧
    (UpdateTodo (sqlite env) rows r.ID patch).2.1.ID = r.ID ∧
    (UpdateTodo (sqlite env) rows r.ID patch).2.1.OwnerID = r.OwnerID ∧
    GetTodo (sqlite e) (UpdateTodo (sqlite env) rows r.ID patch).1 r.ID
      = ((UpdateTodo (sqlite env) rows r.ID patch).2.1, none) := by
  have hget : GetTodo (sqlite env) rows r.ID = (r, none) := by
    simp [GetTodo, sqlite, First_of_mem hpk hr hlive]
  have hown : ¬ (patch.OwnerID ≠ uuid.Nil ∧ r.OwnerID ≠ patch.OwnerID) := by
    rintro ⟨h1, h2⟩
    rcases ho with h | h
    · exact h1 h
    · exact h2 h.symm
  have hmu : (sqlite env).ModelUpdates rows
      { r with Title := patch.Title, Description := patch.Description }
      = (rows.map (fun x => if x.ID = r.ID ∧ x.DeletedAt = none then
          sqlite.assign env.now { r with Title := patch.Title, Description := patch.Description } x
          else x), none) := by
    simp only [sqlite, sqlite.ModelUpdates]
    rw [if_neg hnil]
  have hpk2 := PrimaryKey_UpdateTodo env r.ID patch hpk
  rw [UpdateTodo_consistent _ _ _ _ hid, hget] at hpk2 ⊢
  simp only [ne_eq, not_true_eq_false, if_false, if_neg hown, hmu] at hpk2 ⊢
  have hmem : sqlite.assign env.now
      { r with Title := patch.Title, Description := patch.Description } r ∈
      rows.map (fun x => if x.ID = r.ID ∧ x.DeletedAt = none then
          sqlite.assign env.now { r with Title := patch.Title, Description := patch.Description } x
          else x) := by
    refine List.mem_map.2 ⟨r, hr, ?_⟩
    rw [if_pos ⟨rfl, hlive⟩]
  have hl2 : (sqlite.assign env.now
      { r with Title := patch.Title, Description := patch.Description } r).DeletedAt = none := by
    simp [sqlite.assign, hlive]
  have hfirst : ∀ dest : Todo, dest.ID = uuid.Nil ∨ dest.ID = r.ID →
      sqlite.First (rows.map (fun x => if x.ID = r.ID ∧ x.DeletedAt = none then
          sqlite.assign env.now { r with Title := patch.Title, Description := patch.Description } x
          else x)) dest r.ID
        = (sqlite.assign env.now
            { r with Title := patch.Title, Description := patch.Description } r, none) := by
    intro dest hdest
    have hidr : (sqlite.assign env.now
        { r with Title := patch.Title, Description := patch.Description } r).ID = r.ID := rfl
    have h := find_by_primary_key hpk2 hmem hidr
      (fun x => (dest.ID = uuid.Nil ∨ x.ID = dest.ID) ∧ x.DeletedAt = none)
      ⟨hdest.imp id (fun h => h.symm), hl2⟩
    unfold sqlite.First
    rw [h]
  have h1 := hfirst { patch with ID := r.ID } (Or.inr rfl)
  have h2 := hfirst {} (Or.inl rfl)
  have hres : (sqlite env).First (rows.map (fun x => if x.ID = r.ID ∧ x.DeletedAt = none then
          sqlite.assign env.now { r with Title := patch.Title, Description := patch.Description } x
          else x)) { patch with ID := r.ID } r.ID
        = (sqlite.assign env.now
            { r with Title := patch.Title, Description := patch.Description } r, none) := h1
  rw [hres]
  refine ⟨trivial, ?_, ?_, rfl, ?_, ?_⟩
  · simp [sqlite.assign, ht]
  · simp [sqlite.assign, hd]
  · show (if r.OwnerID = uuid.Nil then r.OwnerID else r.OwnerID) = r.OwnerID
    split <;> rfl
  · simp only [GetTodo, sqlite]
    rw [h2]
    simp

end todo

/-! ## The claims -/

/-- C1: a Todo whose `OwnerID` is the nil UUID is refused by `AddTodo` with
`(Todo{}, ErrOwnerMissing)`, whatever the store and its state, and the store
state is the one before the call. -/
theorem AddTodo_owner_missing {σ : Type} (s : todo.Store σ) (db : σ) (t : todo.Todo)
    (h : t.OwnerID = uuid.Nil) :
    todo.AddTodo s db t = (db, {}, some todo.ErrOwnerMissing) := by
  simp [todo.AddTodo, h]

/-- C1 at a concrete input: a Todo without owner on a table holding one Todo. -/
theorem AddTodo_owner_missing_witness :
    ({ Title := "buy milk" } : todo.Todo).OwnerID = uuid.Nil ∧
    todo.AddTodo (todo.sqlite ⟨5, 7⟩) [{ ID := 1, OwnerID := 2 }] { Title := "buy milk" }
      = ([{ ID := 1, OwnerID := 2 }], {}, some todo.ErrOwnerMissing) :=
  ⟨rfl, AddTodo_owner_missing _ _ _ rfl⟩

/-- C2: on a working database, for a stored live Todo `r`, a patch whose ID is
nil or `r.ID` and whose OwnerID is non-nil and differs from `r.OwnerID` makes
`UpdateTodo` return `(Todo{}, ErrOwnerChanged)` and leaves the whole table, and
so the stored row, as it was. -/
theorem UpdateTodo_owner_changed (env : gorm.Env) (rows : todo.sqlite.Rows) (r patch : todo.Todo)
    (hpk : todo.sqlite.PrimaryKey rows) (hr : r ∈ rows) (hlive : r.DeletedAt = none)
    (hid : patch.ID = uuid.Nil ∨ patch.ID = r.ID)
    (ho : patch.OwnerID ≠ uuid.Nil) (hne : patch.OwnerID ≠ r.OwnerID) :
    todo.UpdateTodo (todo.sqlite env) rows r.ID patch = (rows, {}, some todo.ErrOwnerChanged) := by
  have hget : todo.GetTodo (todo.sqlite env) rows r.ID = (r, none) := by
    simp [todo.GetTodo, todo.sqlite, todo.First_of_mem hpk hr hlive]
  have hne2 : ¬ r.OwnerID = patch.OwnerID := fun h => hne h.symm
  rw [todo.UpdateTodo_consistent _ _ _ _ hid, hget]
  simp [ho, hne2]

/-- C2 at a concrete input: Todo `1` of owner `2`, patched with owner `4`. -/
theorem UpdateTodo_owner_changed_witness :
    todo.UpdateTodo (todo.sqlite ⟨5, 7⟩)
        [{ ID := 1, Title := "buy milk", OwnerID := 2 }, { ID := 3, OwnerID := 4 }] 1
        { Title := "buy oat milk", OwnerID := 4 }
      = ([{ ID := 1, Title := "buy milk", OwnerID := 2 }, { ID := 3, OwnerID := 4 }], {},
          some todo.ErrOwnerChanged) :=
  UpdateTodo_owner_changed ⟨5, 7⟩
    [{ ID := 1, Title := "buy milk", OwnerID := 2 }, { ID := 3, OwnerID := 4 }]
    { ID := 1, Title := "buy milk", OwnerID := 2 } { Title := "buy oat milk", OwnerID := 4 }
    (by decide) (by simp) rfl (Or.inl rfl) (by decide) (by decide)

/-- C3: on a working database, when `UpdateTodo id patch` returns a nil error,
every row of the table keeps its ID and its OwnerID, and every row with another
id than `id` is the same after the call as before. -/
theorem UpdateTodo_owner_immutable (env : gorm.Env) (rows : todo.sqlite.Rows) (id : uuid.UUID)
    (patch : todo.Todo) (hpk : todo.sqlite.PrimaryKey rows)
    (hok : (todo.UpdateTodo (todo.sqlite env) rows id patch).2.2 = none) :
    List.Forall₂
      (fun before after => after.ID = before.ID ∧ after.OwnerID = before.OwnerID ∧
        (before.ID ≠ id → after = before))
      rows (todo.UpdateTodo (todo.sqlite env) rows id patch).1 := by
  have hsame : List.Forall₂
      (fun before after : todo.Todo => after.ID = before.ID ∧ after.OwnerID = before.OwnerID ∧
        (before.ID ≠ id → after = before)) rows rows :=
    List.forall₂_same.2 (fun x _ => ⟨rfl, rfl, fun _ => rfl⟩)
  by_cases hc : patch.ID = uuid.Nil ∨ patch.ID = id
  · rw [todo.UpdateTodo_consistent _ _ _ _ hc] at hok ⊢
    cases hf : todo.sqlite.First rows {} id with
    | mk c e =>
      have hget : todo.GetTodo (todo.sqlite env) rows id
          = if e = some gorm.ErrRecordNotFound then ({}, some todo.ErrNotFound) else (c, e) := by
        simp [todo.GetTodo, todo.sqlite, hf]
      rw [hget] at hok ⊢
      by_cases he : e = none
      · subst he
        obtain ⟨hmem, hid, -⟩ := todo.First_found hf rfl
        subst hid
        have hfr := todo.ModelUpdates_frame env hpk hmem patch.Title patch.Description
        simp only [reduceCtorEq, if_false, ne_eq, not_true_eq_false] at hok ⊢
        split
        · exact hsame
        · split
          · exact hfr
          · exact hfr
      · exfalso
        by_cases he2 : e = some gorm.ErrRecordNotFound
        · simp [he2] at hok
        · simp [he2, he] at hok
  · have h0 : patch.ID ≠ uuid.Nil := fun h => hc (Or.inl h)
    have h1 : patch.ID ≠ id := fun h => hc (Or.inr h)
    rw [todo.UpdateTodo_inconsistent _ _ _ _ h0 h1] at hok
    simp at hok

/-- C3 at a concrete input: a successful update of the Title of Todo `1`. -/
theorem UpdateTodo_owner_immutable_witness :
    List.Forall₂
      (fun before after : todo.Todo => after.ID = before.ID ∧ after.OwnerID = before.OwnerID ∧
        (before.ID ≠ 1 → after = before))
      [{ ID := 1, Title := "buy milk", OwnerID := 2 }, { ID := 3, OwnerID := 4 }]
      (todo.UpdateTodo (todo.sqlite ⟨5, 7⟩)
        [{ ID := 1, Title := "buy milk", OwnerID := 2 }, { ID := 3, OwnerID := 4 }] 1
        { Title := "buy oat milk" }).1 :=
  UpdateTodo_owner_immutable ⟨5, 7⟩
    [{ ID := 1, Title := "buy milk", OwnerID := 2 }, { ID := 3, OwnerID := 4 }] 1
    { Title := "buy oat milk" } (by decide) (by decide)

/-- C4: on a working database, `DeleteTodo` and `DeleteUser` of an id under
which the table holds no live row return a nil error and leave the table as it
was; and for any table and id, deleting a second time returns what the first
deletion returned, error and table. -/
theorem Delete_idempotent :
    (∀ (env : gorm.Env) (rows : todo.sqlite.Rows) (id : uuid.UUID),
      (∀ r ∈ rows, r.ID = id → r.DeletedAt ≠ none) →
      todo.DeleteTodo (todo.sqlite env) rows id = (rows, none)) ∧
    (∀ (a : argon2id.Funcs) (p : argon2id.Params) (env : gorm.Env)
      (rows : authorization.sqlite.Rows) (id : uuid.UUID),
      (∀ r ∈ rows, r.ID = id → r.Model.DeletedAt ≠ none) →
      authorization.DeleteUser (authorization.sqliteSvc a p env) rows id = (rows, none)) ∧
    (∀ (env1 env2 : gorm.Env) (rows : todo.sqlite.Rows) (id : uuid.UUID),
      todo.DeleteTodo (todo.sqlite env2) (todo.DeleteTodo (todo.sqlite env1) rows id).1 id
        = todo.DeleteTodo (todo.sqlite env1) rows id) ∧
    (∀ (a : argon2id.Funcs) (p : argon2id.Params) (env1 env2 : gorm.Env)
      (rows : authorization.sqlite.Rows) (id : uuid.UUID),
      authorization.DeleteUser (authorization.sqliteSvc a p env2)
          (authorization.DeleteUser (authorization.sqliteSvc a p env1) rows id).1 id
        = authorization.DeleteUser (authorization.sqliteSvc a p env1) rows id) := by
  refine ⟨?_, ?_, ?_, ?_⟩
  · intro env rows id h
    simp only [todo.DeleteTodo, todo.sqlite, todo.sqlite.Delete, Prod.mk.injEq, and_true]
    refine (List.map_congr_left (fun r hr => ?_)).trans (List.map_id _)
    by_cases hid : r.ID = id
    · simp [hid, h r hr hid]
    · simp [hid]
  · intro a p env rows id h
    simp only [authorization.DeleteUser, authorization.sqliteSvc, authorization.sqlite,
      authorization.sqlite.Delete, Prod.mk.injEq, and_true]
    refine (List.map_congr_left (fun r hr => ?_)).trans (List.map_id _)
    by_cases hid : r.ID = id
    · simp [hid, h r hr hid]
    · simp [hid]
  · intro env1 env2 rows id
    rw [todo.DeleteTodo_sqlite, todo.DeleteTodo_sqlite]
    simp only [Prod.mk.injEq, and_true, List.map_map]
    refine List.map_congr_left (fun r _ => ?_)
    by_cases hc : r.ID = id ∧ r.DeletedAt = none
    · simp [hc]
    · simp [hc]
  · intro a p env1 env2 rows id
    rw [authorization.DeleteUser_sqlite, authorization.DeleteUser_sqlite]
    simp only [Prod.mk.injEq, and_true, List.map_map]
    refine List.map_congr_left (fun r _ => ?_)
    by_cases hc : r.ID = id ∧ r.Model.DeletedAt = none
    · simp [hc]
    · simp [hc]

/-- C4 at a concrete input: deleting the id `3`, under which neither table holds a row. -/
theorem Delete_idempotent_witness :
    todo.DeleteTodo (todo.sqlite ⟨5, 7⟩) [{ ID := 1, OwnerID := 2 }] 3
      = ([{ ID := 1, OwnerID := 2 }], none) ∧
    authorization.DeleteUser
        (authorization.sqliteSvc ⟨fun _ _ => ("", none), fun _ _ => (false, none)⟩ {} ⟨5, 7⟩)
        [{ ID := 1, Username := "alice" }] 3
      = ([{ ID := 1, Username := "alice" }], none) :=
  ⟨Delete_idempotent.1 ⟨5, 7⟩ [{ ID := 1, OwnerID := 2 }] 3 (by decide),
   Delete_idempotent.2.1 ⟨fun _ _ => ("", none), fun _ _ => (false, none)⟩ {} ⟨5, 7⟩
     [{ ID := 1, Username := "alice" }] 3 (by decide)⟩

/-- C5, as stated, fails: for the nil UUID, on a table holding one live Todo of
owner `2`, `GetTodosOwned` returns that Todo, whose OwnerID is not the nil UUID;
a nil owner gives no owner condition and every live Todo is listed.  For an
owner such as `2` or `4` the same table gives exactly the Todos of that owner. -/
theorem GetTodosOwned_nil_owner :
    todo.GetTodosOwned (todo.sqlite ⟨5, 7⟩) [{ ID := 1, Title := "buy milk", OwnerID := 2 }]
        { ID := uuid.Nil }
      = ([{ ID := 1, Title := "buy milk", OwnerID := 2 }], none) ∧
    ({ ID := 1, Title := "buy milk", OwnerID := 2 } : todo.Todo).OwnerID ≠ uuid.Nil ∧
    todo.GetTodosOwned (todo.sqlite ⟨5, 7⟩) [{ ID := 1, Title := "buy milk", OwnerID := 2 }]
        { ID := 2 }
      = ([{ ID := 1, Title := "buy milk", OwnerID := 2 }], none) ∧
    todo.GetTodosOwned (todo.sqlite ⟨5, 7⟩) [{ ID := 1, Title := "buy milk", OwnerID := 2 }]
        { ID := 4 }
      = ([], none) := by
  decide

/-- C5, amended: on a working database, for every table and every owner `o`
other than the nil UUID, `GetTodosOwned(User{ID: o})` returns a nil error and the
live rows of the table whose OwnerID is `o`, in the order of the table and as
often as the table holds them: a Todo is listed exactly if it is a live stored
Todo of owner `o`, none is listed twice in a table that respects the primary
key, and the list is empty when no live Todo has owner `o`. -/
theorem GetTodosOwned_owner (env : gorm.Env) (rows : todo.sqlite.Rows) (u : authorization.User)
    (ho : u.ID ≠ uuid.Nil) :
    todo.GetTodosOwned (todo.sqlite env) rows u
      = (rows.filter (fun r => decide (r.DeletedAt = none ∧ r.OwnerID = u.ID)), none) ∧
    (∀ t : todo.Todo, t ∈ (todo.GetTodosOwned (todo.sqlite env) rows u).1 ↔
      t ∈ rows ∧ t.DeletedAt = none ∧ t.OwnerID = u.ID) ∧
    (todo.sqlite.PrimaryKey rows → (todo.GetTodosOwned (todo.sqlite env) rows u).1.Nodup) ∧
    ((∀ r ∈ rows, r.DeletedAt = none → r.OwnerID ≠ u.ID) →
      (todo.GetTodosOwned (todo.sqlite env) rows u).1 = []) := by
  have heq : todo.GetTodosOwned (todo.sqlite env) rows u
      = (rows.filter (fun r => decide (r.DeletedAt = none ∧ r.OwnerID = u.ID)), none) := by
    rw [todo.GetTodosOwned_sqlite]
    have hp : (fun r : todo.Todo =>
          decide ((u.ID = uuid.Nil ∨ r.OwnerID = u.ID) ∧ r.DeletedAt = none))
        = (fun r : todo.Todo => decide (r.DeletedAt = none ∧ r.OwnerID = u.ID)) := by
      funext r
      simp only [ho, false_or]
      exact decide_eq_decide.2 and_comm
    rw [hp]
  refine ⟨heq, ?_, ?_, ?_⟩
  · intro t
    rw [heq]
    simp [List.mem_filter]
  · intro hpk
    rw [heq]
    exact (List.Nodup.of_map (fun r : todo.Todo => r.ID) hpk).filter _
  · intro hno
    rw [heq]
    apply List.filter_eq_nil_iff.2
    intro r hr
    simp only [decide_eq_true_eq, not_and]
    exact fun hl => hno r hr hl

/-- C5, amended, at a concrete input: the owner `2` on a table with Todos of the
owners `2` and `4` and a deleted Todo of owner `2`. -/
theorem GetTodosOwned_owner_witness :
    todo.GetTodosOwned (todo.sqlite ⟨5, 7⟩)
        [{ ID := 1, Title := "buy milk", OwnerID := 2 }, { ID := 3, OwnerID := 4 },
         { ID := 6, OwnerID := 2, DeletedAt := some 4 }] { ID := 2 }
      = (([{ ID := 1, Title := "buy milk", OwnerID := 2 }, { ID := 3, OwnerID := 4 },
           { ID := 6, OwnerID := 2, DeletedAt := some 4 }] : todo.sqlite.Rows).filter
          (fun r => decide (r.DeletedAt = none ∧ r.OwnerID = 2)), none) :=
  (GetTodosOwned_owner ⟨5, 7⟩
    [{ ID := 1, Title := "buy milk", OwnerID := 2 }, { ID := 3, OwnerID := 4 },
     { ID := 6, OwnerID := 2, DeletedAt := some 4 }] { ID := 2 } (by decide)).1

/-- C6, as stated, fails: after `DeleteTodo(1)` returned nil, `UpdateTodo(1, patch)`
with a patch that carries the id `3` fails with `ErrInconsistentIDs`, not with
`ErrNotFound`. -/
theorem UpdateTodo_after_delete_inconsistent :
    (todo.DeleteTodo (todo.sqlite ⟨5, 7⟩) [{ ID := 1, Title := "buy milk", OwnerID := 2 }] 1).2
      = none ∧
    (todo.UpdateTodo (todo.sqlite ⟨5, 7⟩)
        (todo.DeleteTodo (todo.sqlite ⟨5, 7⟩) [{ ID := 1, Title := "buy milk", OwnerID := 2 }] 1).1
        1 { ID := 3 }).2.2 = some todo.ErrInconsistentIDs ∧
    todo.ErrInconsistentIDs ≠ todo.ErrNotFound := by
  decide

/-- C6, amended: on a working database `DeleteTodo(id)` returns nil, and after
it and after any further sequence of `UpdateTodo`, `DeleteTodo` and `GetTodo`
calls, `GetTodo(id)` fails with `ErrNotFound`, `UpdateTodo(id, patch)` fails with
`ErrNotFound` and writes nothing for every patch whose ID is nil or `id`, and
neither `GetTodos` nor `GetTodosOwned` lists a Todo with that id; right after the
deletion `GetTodo` of any other id returns what it returned before, and
`GetTodos` returns the list of before without the Todo deleted. -/
theorem DeleteTodo_terminal (env : gorm.Env) (rows : todo.sqlite.Rows) (id : uuid.UUID) :
    (todo.DeleteTodo (todo.sqlite env) rows id).2 = none ∧
    (∀ (calls : List todo.Call) (e : gorm.Env),
      todo.GetTodo (todo.sqlite e)
          (todo.runCalls (todo.DeleteTodo (todo.sqlite env) rows id).1 calls) id
        = ({}, some todo.ErrNotFound) ∧
      (∀ patch : todo.Todo, patch.ID = uuid.Nil ∨ patch.ID = id →
        todo.UpdateTodo (todo.sqlite e)
            (todo.runCalls (todo.DeleteTodo (todo.sqlite env) rows id).1 calls) id patch
          = (todo.runCalls (todo.DeleteTodo (todo.sqlite env) rows id).1 calls, {},
              some todo.ErrNotFound)) ∧
      (∀ t ∈ (todo.GetTodos (todo.sqlite e)
          (todo.runCalls (todo.DeleteTodo (todo.sqlite env) rows id).1 calls)).1, t.ID ≠ id) ∧
      (∀ (u : authorization.User), ∀ t ∈ (todo.GetTodosOwned (todo.sqlite e)
          (todo.runCalls (todo.DeleteTodo (todo.sqlite env) rows id).1 calls) u).1, t.ID ≠ id)) ∧
    (∀ (e : gorm.Env) (j : uuid.UUID), j ≠ id →
      todo.GetTodo (todo.sqlite e) (todo.DeleteTodo (todo.sqlite env) rows id).1 j
        = todo.GetTodo (todo.sqlite e) rows j) ∧
    (∀ e : gorm.Env,
      (todo.GetTodos (todo.sqlite e) (todo.DeleteTodo (todo.sqlite env) rows id).1).1
        = (todo.GetTodos (todo.sqlite e) rows).1.filter (fun t => decide (t.ID ≠ id))) := by
  refine ⟨by rw [todo.DeleteTodo_sqlite], ?_, ?_, ?_⟩
  · intro calls e
    have h := todo.NoLive_runCalls calls (todo.NoLive_DeleteTodo env rows id)
    refine ⟨todo.GetTodo_of_NoLive e h, fun patch hp => todo.UpdateTodo_of_NoLive e h patch hp,
      ?_, ?_⟩
    · intro t ht hid
      rw [todo.GetTodos_sqlite] at ht
      have hm := List.mem_filter.1 ht
      exact h t hm.1 hid (by simpa using hm.2)
    · intro u t ht hid
      rw [todo.GetTodosOwned_sqlite] at ht
      have hm := List.mem_filter.1 ht
      have hl : t.DeletedAt = none := by
        have := hm.2
        simp only [decide_eq_true_eq] at this
        exact this.2
      exact h t hm.1 hid hl
  · intro e j hj
    exact todo.GetTodo_after_DeleteTodo env e rows hj
  · intro e
    exact todo.GetTodos_after_DeleteTodo env e rows id

/-- C6, amended, at a concrete input: Todo `1` deleted, three further calls, then an
update of Todo `1`; and Todo `3` read after the deletion. -/
theorem DeleteTodo_terminal_witness :
    todo.UpdateTodo (todo.sqlite ⟨9, 9⟩)
        (todo.runCalls
          (todo.DeleteTodo (todo.sqlite ⟨5, 7⟩)
            [{ ID := 1, Title := "buy milk", OwnerID := 2 }, { ID := 3, OwnerID := 4 }] 1).1
          [todo.Call.UpdateTodo ⟨6, 7⟩ 1 { Title := "buy oat milk" }, todo.Call.GetTodo 1,
           todo.Call.DeleteTodo ⟨8, 7⟩ 3])
        1 { Title := "buy oat milk" }
      = (todo.runCalls
          (todo.DeleteTodo (todo.sqlite ⟨5, 7⟩)
            [{ ID := 1, Title := "buy milk", OwnerID := 2 }, { ID := 3, OwnerID := 4 }] 1).1
          [todo.Call.UpdateTodo ⟨6, 7⟩ 1 { Title := "buy oat milk" }, todo.Call.GetTodo 1,
           todo.Call.DeleteTodo ⟨8, 7⟩ 3], {}, some todo.ErrNotFound) ∧
    todo.GetTodo (todo.sqlite ⟨9, 9⟩)
        (todo.DeleteTodo (todo.sqlite ⟨5, 7⟩)
          [{ ID := 1, Title := "buy milk", OwnerID := 2 }, { ID := 3, OwnerID := 4 }] 1).1 3
      = todo.GetTodo (todo.sqlite ⟨9, 9⟩)
          [{ ID := 1, Title := "buy milk", OwnerID := 2 }, { ID := 3, OwnerID := 4 }] 3 :=
  ⟨((DeleteTodo_terminal ⟨5, 7⟩
      [{ ID := 1, Title := "buy milk", OwnerID := 2 }, { ID := 3, OwnerID := 4 }] 1).2.1
      [todo.Call.UpdateTodo ⟨6, 7⟩ 1 { Title := "buy oat milk" }, todo.Call.GetTodo 1,
       todo.Call.DeleteTodo ⟨8, 7⟩ 3] ⟨9, 9⟩).2.1 { Title := "buy oat milk" } (Or.inl rfl),
   (DeleteTodo_terminal ⟨5, 7⟩
      [{ ID := 1, Title := "buy milk", OwnerID := 2 }, { ID := 3, OwnerID := 4 }] 1).2.2.1
      ⟨9, 9⟩ 3 (by decide)⟩

/-- C7, as stated, fails: `AddTodo` of a Todo with owner `2` that carries a
deletion mark succeeds and returns the Todo with id `1`, and `GetTodo(1)` then
fails with `ErrNotFound`. -/
theorem GetTodo_after_AddTodo_deleted :
    ({ ID := 1, Title := "buy milk", OwnerID := 2, DeletedAt := some 3 } : todo.Todo).OwnerID
      ≠ uuid.Nil ∧
    (todo.AddTodo (todo.sqlite ⟨5, 7⟩) []
        { ID := 1, Title := "buy milk", OwnerID := 2, DeletedAt := some 3 }).2
      = ({ CreatedAt := 5, UpdatedAt := 5, DeletedAt := some 3, ID := 1, Title := "buy milk",
           OwnerID := 2 }, none) ∧
    todo.GetTodo (todo.sqlite ⟨5, 7⟩)
        (todo.AddTodo (todo.sqlite ⟨5, 7⟩) []
          { ID := 1, Title := "buy milk", OwnerID := 2, DeletedAt := some 3 }).1 1
      = ({}, some todo.ErrNotFound) := by
  decide

/-- C7, amended: on a working database `GetTodo(id)` returns
`(Todo{}, ErrNotFound)` exactly when the table holds no live Todo with that id,
and otherwise returns a live stored Todo with that id and a nil error; and for
every Todo `t` that carries no deletion mark, if `AddTodo(t)` returns a nil error
then `GetTodo` of the returned id returns the returned Todo (so the same ID,
Title, Description and OwnerID) with a nil error. -/
theorem GetTodo_spec :
    (∀ (env : gorm.Env) (rows : todo.sqlite.Rows) (id : uuid.UUID),
      todo.GetTodo (todo.sqlite env) rows id = ({}, some todo.ErrNotFound) ↔
        ¬ ∃ r ∈ rows, r.ID = id ∧ r.DeletedAt = none) ∧
    (∀ (env : gorm.Env) (rows : todo.sqlite.Rows) (id : uuid.UUID),
      (∃ r ∈ rows, r.ID = id ∧ r.DeletedAt = none) →
        ∃ r ∈ rows, r.ID = id ∧ r.DeletedAt = none ∧
          todo.GetTodo (todo.sqlite env) rows id = (r, none)) ∧
    (∀ (env e : gorm.Env) (rows : todo.sqlite.Rows) (t : todo.Todo),
      t.DeletedAt = none → (todo.AddTodo (todo.sqlite env) rows t).2.2 = none →
        todo.GetTodo (todo.sqlite e) (todo.AddTodo (todo.sqlite env) rows t).1
            (todo.AddTodo (todo.sqlite env) rows t).2.1.ID
          = ((todo.AddTodo (todo.sqlite env) rows t).2.1, none)) := by
  have hfound : ∀ (env : gorm.Env) (rows : todo.sqlite.Rows) (id : uuid.UUID),
      (∃ r ∈ rows, r.ID = id ∧ r.DeletedAt = none) →
        ∃ r ∈ rows, r.ID = id ∧ r.DeletedAt = none ∧
          todo.GetTodo (todo.sqlite env) rows id = (r, none) := by
    intro env rows id ⟨r, hr, hid, hl⟩
    cases hf : rows.find? (fun r => decide (r.ID = id ∧ r.DeletedAt = none)) with
    | none =>
      have := List.find?_eq_none.1 hf r hr
      simp [hid, hl] at this
    | some x =>
      have hp := List.find?_some hf
      simp only [decide_eq_true_eq] at hp
      exact ⟨x, List.mem_of_find?_eq_some hf, hp.1, hp.2, by rw [todo.GetTodo_sqlite, hf]⟩
  refine ⟨?_, hfound, ?_⟩
  · intro env rows id
    constructor
    · intro hget hex
      obtain ⟨r, -, -, -, hr⟩ := hfound env rows id hex
      rw [hr] at hget
      simp at hget
    · intro hno
      apply todo.GetTodo_of_NoLive
      intro r hr hid hl
      exact hno ⟨r, hr, hid, hl⟩
  · intro env e rows t hdel hok
    by_cases ho : t.OwnerID = uuid.Nil
    · simp [todo.AddTodo, ho] at hok
    · have hdel1 : (t.BeforeCreate env.rand).DeletedAt = none := by
        unfold todo.Todo.BeforeCreate
        split
        · exact hdel
        · exact hdel
      by_cases hin : (t.BeforeCreate env.rand).ID ∈ rows.map (fun r => r.ID)
      · simp [todo.AddTodo, ho, todo.sqlite, todo.sqlite.Create, hin] at hok
      · have hadd : todo.AddTodo (todo.sqlite env) rows t =
            (rows ++ [{ t.BeforeCreate env.rand with
                CreatedAt := if (t.BeforeCreate env.rand).CreatedAt = 0 then env.now
                  else (t.BeforeCreate env.rand).CreatedAt
                UpdatedAt := if (t.BeforeCreate env.rand).UpdatedAt = 0 then env.now
                  else (t.BeforeCreate env.rand).UpdatedAt }],
              { t.BeforeCreate env.rand with
                CreatedAt := if (t.BeforeCreate env.rand).CreatedAt = 0 then env.now
                  else (t.BeforeCreate env.rand).CreatedAt
                UpdatedAt := if (t.BeforeCreate env.rand).UpdatedAt = 0 then env.now
                  else (t.BeforeCreate env.rand).UpdatedAt }, none) := by
          simp [todo.AddTodo, ho, todo.sqlite, todo.sqlite.Create, hin]
        rw [hadd, todo.GetTodo_sqlite]
        have hnone : rows.find? (fun r =>
            decide (r.ID = (t.BeforeCreate env.rand).ID ∧ r.DeletedAt = none)) = none := by
          apply List.find?_eq_none.2
          intro r hr
          simp only [decide_eq_true_eq, not_and]
          intro hid
          exact absurd (hid ▸ List.mem_map_of_mem (fun r => r.ID) hr) hin
        simp only [List.find?_append, hnone, Option.none_or, List.find?_cons, hdel1, and_self,
          decide_True]

/-- C7, amended, at a concrete input: a Todo added and read back, and a stored
Todo read. -/
theorem GetTodo_spec_witness :
    todo.GetTodo (todo.sqlite ⟨9, 9⟩)
        (todo.AddTodo (todo.sqlite ⟨5, 7⟩) [{ ID := 3, OwnerID := 4 }]
          { Title := "buy milk", OwnerID := 2 }).1
        (todo.AddTodo (todo.sqlite ⟨5, 7⟩) [{ ID := 3, OwnerID := 4 }]
          { Title := "buy milk", OwnerID := 2 }).2.1.ID
      = ((todo.AddTodo (todo.sqlite ⟨5, 7⟩) [{ ID := 3, OwnerID := 4 }]
          { Title := "buy milk", OwnerID := 2 }).2.1, none) ∧
    ∃ r ∈ ([{ ID := 3, OwnerID := 4 }] : todo.sqlite.Rows), r.ID = 3 ∧ r.DeletedAt = none ∧
      todo.GetTodo (todo.sqlite ⟨9, 9⟩) [{ ID := 3, OwnerID := 4 }] 3 = (r, none) :=
  ⟨GetTodo_spec.2.2 ⟨5, 7⟩ ⟨9, 9⟩ [{ ID := 3, OwnerID := 4 }] { Title := "buy milk", OwnerID := 2 }
      rfl (by decide),
   GetTodo_spec.2.1 ⟨9, 9⟩ [{ ID := 3, OwnerID := 4 }] 3
      ⟨{ ID := 3, OwnerID := 4 }, by simp, rfl, rfl⟩⟩

/-- C8: `UpdateTodo` evaluated on a patch with an empty Title: the stored Todo
`1` has Title "buy milk", the call returns a nil error and a Todo whose Title is
still "buy milk", not the empty Title of the patch, and `GetTodo` afterwards
returns "buy milk" too.  The Description of the patch, not empty, is applied. -/
theorem UpdateTodo_empty_title :
    (todo.UpdateTodo (todo.sqlite ⟨5, 7⟩) [{ ID := 1, Title := "buy milk", OwnerID := 2 }] 1
        { Title := "", Description := "two litres" }).2
      = ({ UpdatedAt := 5, ID := 1, Title := "buy milk", Description := "two litres",
           OwnerID := 2 }, none) ∧
    (todo.GetTodo (todo.sqlite ⟨5, 7⟩)
        (todo.UpdateTodo (todo.sqlite ⟨5, 7⟩) [{ ID := 1, Title := "buy milk", OwnerID := 2 }] 1
          { Title := "", Description := "two litres" }).1 1).1.Title = "buy milk" ∧
    ({ Title := "", Description := "two litres" } : todo.Todo).Title ≠ "buy milk" := by
  decide

/-- C9: a patch that carries an id of its own, different from the id of the
call, makes `UpdateTodo` and `UpdateUser` return `ErrInconsistentIDs` with the
zero entity, whatever the store and its state, and the store state is the one
before the call. -/
theorem Update_inconsistent_ids :
    (∀ (σ : Type) (s : todo.Store σ) (db : σ) (id : uuid.UUID) (t : todo.Todo),
      t.ID ≠ uuid.Nil → t.ID ≠ id →
      todo.UpdateTodo s db id t = (db, {}, some todo.ErrInconsistentIDs)) ∧
    (∀ (σ : Type) (s : authorization.dbSvc σ) (db : σ) (id : uuid.UUID) (U : authorization.User),
      U.ID ≠ uuid.Nil → U.ID ≠ id →
      authorization.UpdateUser s db id U = (db, {}, some authorization.ErrInconsistentIDs)) := by
  refine ⟨?_, ?_⟩
  · intro σ s db id t h0 h1
    simp [todo.UpdateTodo, h0, h1]
  · intro σ s db id U h0 h1
    simp [authorization.UpdateUser, h0, h1]

/-- C9 at a concrete input: the id `1` of the call against the id `3` of the patch. -/
theorem Update_inconsistent_ids_witness :
    todo.UpdateTodo (todo.sqlite ⟨5, 7⟩) [{ ID := 1, Title := "buy milk", OwnerID := 2 }] 1
        { ID := 3, Title := "buy oat milk" }
      = ([{ ID := 1, Title := "buy milk", OwnerID := 2 }], {}, some todo.ErrInconsistentIDs) ∧
    authorization.UpdateUser
        (authorization.sqliteSvc ⟨fun _ _ => ("", none), fun _ _ => (false, none)⟩ {} ⟨5, 7⟩)
        [] 1 { ID := 3, Username := "alice" }
      = ([], {}, some authorization.ErrInconsistentIDs) :=
  ⟨Update_inconsistent_ids.1 _ _ _ _ _ (by decide) (by decide),
   Update_inconsistent_ids.2 _ _ _ _ _ (by decide) (by decide)⟩

/-- C10: `UpdateUser` evaluated for an id without row, on the empty table: the
call persists nothing but returns the error of the store,
`gorm.ErrRecordNotFound`, which is not the `ErrNotFound` that `GetUser` returns
for the same id on the same table. -/
theorem UpdateUser_absent_id :
    authorization.UpdateUser
        (authorization.sqliteSvc ⟨fun _ _ => ("", none), fun _ _ => (false, none)⟩ {} ⟨5, 7⟩)
        [] 1 { Username := "alice" }
      = ([], {}, some gorm.ErrRecordNotFound) ∧
    authorization.GetUser
        (authorization.sqliteSvc ⟨fun _ _ => ("", none), fun _ _ => (false, none)⟩ {} ⟨5, 7⟩)
        [] 1
      = ({}, some authorization.ErrNotFound) ∧
    gorm.ErrRecordNotFound ≠ authorization.ErrNotFound := by
  decide

/-! ## Facts about creation -/

theorem uuid_New_ne_Nil (r : Nat) : uuid.New r ≠ uuid.Nil := by
  unfold uuid.New uuid.Nil
  apply Nat.ne_of_gt
  positivity

namespace todo

/-- What a successful `AddTodo` did on a working database: the candidate, with
its id and timestamps filled in, is the Todo returned and the new last row. -/
theorem AddTodo_success (env : gorm.Env) (rows : sqlite.Rows) (t : Todo)
    (hok : (AddTodo (sqlite env) rows t).2.2 = none) :
    t.OwnerID ≠ uuid.Nil ∧
    ∃ row : Todo,
      row.ID = (if t.ID = uuid.Nil then uuid.New env.rand else t.ID) ∧
      row.Title = t.Title ∧ row.Description = t.Description ∧ row.OwnerID = t.OwnerID ∧
      row.DeletedAt = t.DeletedAt ∧ row.ID ∉ rows.map (fun r => r.ID) ∧
      AddTodo (sqlite env) rows t = (rows ++ [row], row, none) := by
  by_cases ho : t.OwnerID = uuid.Nil
  · simp [AddTodo, ho] at hok
  · refine ⟨ho, ?_⟩
    have hb : (t.BeforeCreate env.rand).ID = (if t.ID = uuid.Nil then uuid.New env.rand else t.ID)
        ∧ (t.BeforeCreate env.rand).Title = t.Title
        ∧ (t.BeforeCreate env.rand).Description = t.Description
        ∧ (t.BeforeCreate env.rand).OwnerID = t.OwnerID
        ∧ (t.BeforeCreate env.rand).DeletedAt = t.DeletedAt := by
      unfold Todo.BeforeCreate
      split <;> simp [*]
    by_cases hin : (t.BeforeCreate env.rand).ID ∈ rows.map (fun r => r.ID)
    · simp [AddTodo, ho, sqlite, sqlite.Create, hin] at hok
    · refine ⟨{ t.BeforeCreate env.rand with
          CreatedAt := if (t.BeforeCreate env.rand).CreatedAt = 0 then env.now
            else (t.BeforeCreate env.rand).CreatedAt
          UpdatedAt := if (t.BeforeCreate env.rand).UpdatedAt = 0 then env.now
            else (t.BeforeCreate env.rand).UpdatedAt }, hb.1, hb.2.1, hb.2.2.1, hb.2.2.2.1,
          hb.2.2.2.2, hin, ?_⟩
      simp [AddTodo, ho, sqlite, sqlite.Create, hin]

end todo

namespace authorization

/-- What a successful `AddUser` did on a working database: the candidate was
valid, and the row made of it, with its id filled in and its password hashed,
is the new last row; the User returned is that row without its hash. -/
theorem AddUser_success (a : argon2id.Funcs) (p : argon2id.Params) (env : gorm.Env)
    (rows : sqlite.Rows) (u : User)
    (hok : (AddUser (sqliteSvc a p env) rows u).2.2 = none) :
    u.Username ≠ "" ∧ u.Password ≠ "" ∧ (a.HashPassword u.Password p).2 = none ∧
    ∃ row : storedUser,
      row.ID = (if u.ID = uuid.Nil then uuid.New env.rand else u.ID) ∧
      row.Username = u.Username ∧ row.PasswordHash = (a.HashPassword u.Password p).1 ∧
      row.Model.DeletedAt = none ∧ row.ID ∉ rows.map (fun r => r.ID) ∧
      row.Username ∉ rows.map (fun r => r.Username) ∧
      AddUser (sqliteSvc a p env) rows u = (rows ++ [row], row.ToUser, none) := by
  by_cases hv : u.Username = "" ∨ u.Password = ""
  · simp [AddUser, hv] at hok
  · have hn : u.Username ≠ "" := fun h => hv (Or.inl h)
    have hp : u.Password ≠ "" := fun h => hv (Or.inr h)
    obtain ⟨m, hm⟩ : ∃ m : storedUser,
        m = ⟨{}, u.ID, u.Username, (a.HashPassword u.Password p).1⟩ := ⟨_, rfl⟩
    have hmade : newStoredUser a u p = (m, (a.HashPassword u.Password p).2) := by
      rw [hm]
      simp [newStoredUser, hp]
    have hmi : m.ID = u.ID := by rw [hm]
    have hmn : m.Username = u.Username := by rw [hm]
    have hmh : m.PasswordHash = (a.HashPassword u.Password p).1 := by rw [hm]
    have hmd : m.Model.DeletedAt = none := by rw [hm]
    by_cases hh : (a.HashPassword u.Password p).2 = none
    · refine ⟨hn, hp, hh, ?_⟩
      have hb : (m.BeforeCreate env.rand).ID
            = (if m.ID = uuid.Nil then uuid.New env.rand else m.ID)
          ∧ (m.BeforeCreate env.rand).Username = m.Username
          ∧ (m.BeforeCreate env.rand).PasswordHash = m.PasswordHash
          ∧ (m.BeforeCreate env.rand).Model = m.Model := by
        unfold storedUser.BeforeCreate
        split <;> simp [*]
      by_cases hin : (m.BeforeCreate env.rand).ID ∈ rows.map (fun r => r.ID) ∨
          (m.BeforeCreate env.rand).Username ∈ rows.map (fun r => r.Username)
      · simp only [AddUser, hv, if_false, sqliteSvc, hmade, hh, sqlite, sqlite.Create, hin,
          ne_eq, not_true_eq_false, if_true, not_false_eq_true, reduceCtorEq] at hok
      · refine ⟨{ m.BeforeCreate env.rand with Model := { (m.BeforeCreate env.rand).Model with
            CreatedAt := if (m.BeforeCreate env.rand).Model.CreatedAt = 0 then env.now
              else (m.BeforeCreate env.rand).Model.CreatedAt
            UpdatedAt := if (m.BeforeCreate env.rand).Model.UpdatedAt = 0 then env.now
              else (m.BeforeCreate env.rand).Model.UpdatedAt } }, ?_, ?_, ?_, ?_, ?_, ?_, ?_⟩
        · show (m.BeforeCreate env.rand).ID = _
          rw [hb.1, hmi]
        · show (m.BeforeCreate env.rand).Username = _
          rw [hb.2.1, hmn]
        · show (m.BeforeCreate env.rand).PasswordHash = _
          rw [hb.2.2.1, hmh]
        · show (m.BeforeCreate env.rand).Model.DeletedAt = none
          rw [hb.2.2.2, hmd]
        · exact fun h => hin (Or.inl h)
        · exact fun h => hin (Or.inr h)
        · simp only [AddUser, hv, if_false, sqliteSvc, hmade, hh, sqlite, sqlite.Create, hin,
            ne_eq, not_true_eq_false, if_true, not_false_eq_true]
    · simp [AddUser, hv, sqliteSvc, hmade, hh] at hok

end authorization

/-! ## The claims on users, creation and transport -/

/-- C11: a User whose Username or Password is empty is refused by `AddUser` with
`(User{}, ErrInvalidUserObject)`, whatever the store, its state and the hasher
(which so has no part in the result), and the store state is the one before the
call; and on a working database a successful `AddUser` persists one row, whose
username is the candidate's and is not empty. -/
theorem AddUser_invalid :
    (∀ (σ : Type) (s : authorization.dbSvc σ) (db : σ) (u : authorization.User),
      u.Username = "" ∨ u.Password = "" →
      authorization.AddUser s db u = (db, {}, some authorization.ErrInvalidUserObject)) ∧
    (∀ (a : argon2id.Funcs) (p : argon2id.Params) (env : gorm.Env)
      (rows : authorization.sqlite.Rows) (u : authorization.User),
      (authorization.AddUser (authorization.sqliteSvc a p env) rows u).2.2 = none →
      ∃ row : authorization.storedUser,
        (authorization.AddUser (authorization.sqliteSvc a p env) rows u).1 = rows ++ [row] ∧
        row.Username = u.Username ∧ row.Username ≠ "") := by
  refine ⟨?_, ?_⟩
  · intro σ s db u h
    simp [authorization.AddUser, h]
  · intro a p env rows u hok
    obtain ⟨hn, -, -, row, -, hrn, -, -, -, -, hadd⟩ :=
      authorization.AddUser_success a p env rows u hok
    exact ⟨row, by rw [hadd], hrn, by rw [hrn]; exact hn⟩

/-- C11 at concrete inputs: a candidate without password, with a hasher that
would fail; and a valid candidate on the empty table. -/
theorem AddUser_invalid_witness :
    authorization.AddUser
        (authorization.sqliteSvc ⟨fun _ _ => ("", some (GoError.argon2id 1)),
          fun _ _ => (false, none)⟩ {} ⟨5, 7⟩)
        [] { Username := "alice" }
      = ([], {}, some authorization.ErrInvalidUserObject) ∧
    ∃ row : authorization.storedUser,
      (authorization.AddUser
        (authorization.sqliteSvc ⟨fun pw _ => ("argon2id$" ++ pw, none),
          fun pw h => (decide (h = "argon2id$" ++ pw), none)⟩ {} ⟨5, 7⟩)
        [] { Username := "alice", Password := "s3cret" }).1 = [] ++ [row] ∧
      row.Username = "alice" ∧ row.Username ≠ "" :=
  ⟨AddUser_invalid.1 _ _ _ _ (Or.inr rfl),
   AddUser_invalid.2 ⟨fun pw _ => ("argon2id$" ++ pw, none),
      fun pw h => (decide (h = "argon2id$" ++ pw), none)⟩ {} ⟨5, 7⟩ []
      { Username := "alice", Password := "s3cret" } (by decide)⟩

/-- C12: `AddUser` followed by `AuthenticateUser` with the same credentials,
evaluated on a table that holds another user: "bob" with id `1` is stored,
"alice" is added with password "s3cret" by a hasher that verifies every
password against its own hash, and `AuthenticateUser` of "alice" with "s3cret"
fails with `ErrAuthenticationFailed`, where the claim asks for a nil error and
the id of "alice".  On the empty table the same calls succeed. -/
theorem AuthenticateUser_after_AddUser :
    (authorization.AddUser
        (authorization.sqliteSvc ⟨fun pw _ => ("argon2id$" ++ pw, none),
          fun pw h => (decide (h = "argon2id$" ++ pw), none)⟩ {} ⟨5, 7⟩)
        [{ ID := 1, Username := "bob", PasswordHash := "argon2id$hunter2" }]
        { Username := "alice", Password := "s3cret" }).2
      = ({ ID := uuid.New 7, Username := "alice" }, none) ∧
    authorization.AuthenticateUser
        (authorization.sqliteSvc ⟨fun pw _ => ("argon2id$" ++ pw, none),
          fun pw h => (decide (h = "argon2id$" ++ pw), none)⟩ {} ⟨5, 7⟩)
        (authorization.AddUser
          (authorization.sqliteSvc ⟨fun pw _ => ("argon2id$" ++ pw, none),
            fun pw h => (decide (h = "argon2id$" ++ pw), none)⟩ {} ⟨5, 7⟩)
          [{ ID := 1, Username := "bob", PasswordHash := "argon2id$hunter2" }]
          { Username := "alice", Password := "s3cret" }).1
        { Username := "alice", Password := "s3cret" }
      = ({}, some authorization.ErrAuthenticationFailed) ∧
    authorization.AuthenticateUser
        (authorization.sqliteSvc ⟨fun pw _ => ("argon2id$" ++ pw, none),
          fun pw h => (decide (h = "argon2id$" ++ pw), none)⟩ {} ⟨5, 7⟩)
        (authorization.AddUser
          (authorization.sqliteSvc ⟨fun pw _ => ("argon2id$" ++ pw, none),
            fun pw h => (decide (h = "argon2id$" ++ pw), none)⟩ {} ⟨5, 7⟩)
          [] { Username := "alice", Password := "s3cret" }).1
        { Username := "alice", Password := "s3cret" }
      = ({ ID := uuid.New 7, Username := "alice" }, none) := by
  decide

/-- C13: `AuthenticateUser` with a wrong password, evaluated on a table that
`AddUser` filled with two users: "bob" with id `1` and password "hunter2", then
"alice" with id `5` and password "s3cret".  The hasher reports that "hunter2"
does not match the stored hash of "alice", and `AuthenticateUser` of "alice"
with "hunter2" returns the User "bob" and a nil error, where the claim asks for
`(User{}, ErrAuthenticationFailed)`. -/
theorem AuthenticateUser_wrong_password :
    (authorization.AddUser
        (authorization.sqliteSvc ⟨fun pw _ => ("argon2id$" ++ pw, none),
          fun pw h => (decide (h = "argon2id$" ++ pw), none)⟩ {} ⟨5, 7⟩)
        (authorization.AddUser
          (authorization.sqliteSvc ⟨fun pw _ => ("argon2id$" ++ pw, none),
            fun pw h => (decide (h = "argon2id$" ++ pw), none)⟩ {} ⟨5, 7⟩)
          [] { ID := 1, Username := "bob", Password := "hunter2" }).1
        { ID := 5, Username := "alice", Password := "s3cret" })
      = ([{ Model := { CreatedAt := 5, UpdatedAt := 5 }, ID := 1, Username := "bob",
            PasswordHash := "argon2id$hunter2" },
          { Model := { CreatedAt := 5, UpdatedAt := 5 }, ID := 5, Username := "alice",
            PasswordHash := "argon2id$s3cret" }],
         { ID := 5, Username := "alice" }, none) ∧
    authorization.storedUser.ComparePassword
        ⟨fun pw _ => ("argon2id$" ++ pw, none), fun pw h => (decide (h = "argon2id$" ++ pw), none)⟩
        { Model := { CreatedAt := 5, UpdatedAt := 5 }, ID := 5, Username := "alice",
          PasswordHash := "argon2id$s3cret" } "hunter2"
      = (false, none) ∧
    authorization.AuthenticateUser
        (authorization.sqliteSvc ⟨fun pw _ => ("argon2id$" ++ pw, none),
          fun pw h => (decide (h = "argon2id$" ++ pw), none)⟩ {} ⟨5, 7⟩)
        [{ Model := { CreatedAt := 5, UpdatedAt := 5 }, ID := 1, Username := "bob",
            PasswordHash := "argon2id$hunter2" },
          { Model := { CreatedAt := 5, UpdatedAt := 5 }, ID := 5, Username := "alice",
            PasswordHash := "argon2id$s3cret" }]
        { Username := "alice", Password := "hunter2" }
      = ({ ID := 1, Username := "bob" }, none) := by
  decide

/-- C14, as stated, fails: with "alice" stored, `AddUser` of another "alice"
fails with the uniqueness error of the database driver as it is, which is none
of the errors the package defines, and which `encodeError` answers with the
status `500` of an uncategorized error. -/
theorem AddUser_duplicate_username :
    authorization.AddUser
        (authorization.sqliteSvc ⟨fun pw _ => ("argon2id$" ++ pw, none),
          fun pw h => (decide (h = "argon2id$" ++ pw), none)⟩ {} ⟨5, 7⟩)
        [{ ID := 1, Username := "alice", PasswordHash := "argon2id$s3cret" }]
        { Username := "alice", Password := "hunter2" }
      = ([{ ID := 1, Username := "alice", PasswordHash := "argon2id$s3cret" }], {},
          some GoError.sqlite_ErrConstraintUnique) ∧
    GoError.sqlite_ErrConstraintUnique ∉ authorization.ErrVars ∧
    (authorization.transport.encodeError GoError.sqlite_ErrConstraintUnique {}).StatusCode
      = some http.StatusInternalServerError := by
  decide

/-- C14, amended: on a working database whose table already holds a row with
username `n`, `AddUser` of a candidate with username `n` and a non-empty
password fails and returns `User{}`, with the error of the hasher if hashing
fails and else with the uniqueness error of the driver as it is, and the table
is the one before the call. -/
theorem AddUser_conflict (a : argon2id.Funcs) (p : argon2id.Params) (env : gorm.Env)
    (rows : authorization.sqlite.Rows) (u : authorization.User)
    (hn : u.Username ≠ "") (hp : u.Password ≠ "")
    (hex : ∃ r ∈ rows, r.Username = u.Username) :
    (authorization.AddUser (authorization.sqliteSvc a p env) rows u).1 = rows ∧
    (authorization.AddUser (authorization.sqliteSvc a p env) rows u).2.1 = {} ∧
    (authorization.AddUser (authorization.sqliteSvc a p env) rows u).2.2 ≠ none ∧
    ((a.HashPassword u.Password p).2 = none →
      (authorization.AddUser (authorization.sqliteSvc a p env) rows u).2.2
        = some GoError.sqlite_ErrConstraintUnique) ∧
    ((a.HashPassword u.Password p).2 ≠ none →
      (authorization.AddUser (authorization.sqliteSvc a p env) rows u).2.2
        = (a.HashPassword u.Password p).2) := by
  have hv : ¬ (u.Username = "" ∨ u.Password = "") := fun h => h.elim hn hp
  have hmade : authorization.newStoredUser a u p =
      (⟨{}, u.ID, u.Username, (a.HashPassword u.Password p).1⟩,
        (a.HashPassword u.Password p).2) := by
    simp [authorization.newStoredUser, hp]
  by_cases hh : (a.HashPassword u.Password p).2 = none
  · have hin : ((⟨{}, u.ID, u.Username, (a.HashPassword u.Password p).1⟩ :
        authorization.storedUser).BeforeCreate env.rand).Username
          ∈ rows.map (fun r => r.Username) := by
      obtain ⟨r, hr, hru⟩ := hex
      have : ((⟨{}, u.ID, u.Username, (a.HashPassword u.Password p).1⟩ :
          authorization.storedUser).BeforeCreate env.rand).Username = u.Username := by
        unfold authorization.storedUser.BeforeCreate
        split <;> rfl
      rw [this, ← hru]
      exact List.mem_map_of_mem (fun r => r.Username) hr
    have hadd : authorization.AddUser (authorization.sqliteSvc a p env) rows u
        = (rows, {}, some GoError.sqlite_ErrConstraintUnique) := by
      simp [authorization.AddUser, hv, authorization.sqliteSvc, hmade, hh,
        authorization.sqlite, authorization.sqlite.Create, hin]
    rw [hadd]
    exact ⟨rfl, rfl, by simp, fun _ => rfl, fun h => absurd hh h⟩
  · have hadd : authorization.AddUser (authorization.sqliteSvc a p env) rows u
        = (rows, {}, (a.HashPassword u.Password p).2) := by
      simp [authorization.AddUser, hv, authorization.sqliteSvc, hmade, hh]
    rw [hadd]
    exact ⟨rfl, rfl, hh, fun h => absurd h hh, fun _ => rfl⟩

/-- C14, amended, at a concrete input: a second "alice". -/
theorem AddUser_conflict_witness :
    (authorization.AddUser
        (authorization.sqliteSvc ⟨fun pw _ => ("argon2id$" ++ pw, none),
          fun pw h => (decide (h = "argon2id$" ++ pw), none)⟩ {} ⟨5, 7⟩)
        [{ ID := 1, Username := "alice", PasswordHash := "argon2id$s3cret" }]
        { Username := "alice", Password := "hunter2" }).1
      = [{ ID := 1, Username := "alice", PasswordHash := "argon2id$s3cret" }] :=
  (AddUser_conflict ⟨fun pw _ => ("argon2id$" ++ pw, none),
      fun pw h => (decide (h = "argon2id$" ++ pw), none)⟩ {} ⟨5, 7⟩
      [{ ID := 1, Username := "alice", PasswordHash := "argon2id$s3cret" }]
      { Username := "alice", Password := "hunter2" } (by decide) (by decide)
      ⟨{ ID := 1, Username := "alice", PasswordHash := "argon2id$s3cret" }, by simp, rfl⟩).1

/-- C15: whatever the store and its state, every User returned by `AddUser`,
`GetUser`, `FindUser`, `UpdateUser` and `AuthenticateUser`, and every User in
the list `GetUsers` returns, has an empty Password, so that its JSON encoding
consists of the members "id" and "username" and has no member "password". -/
theorem no_password_exposed {σ : Type} (s : authorization.dbSvc σ) (db : σ)
    (ret : authorization.User)
    (h : (∃ u, ret = (authorization.AddUser s db u).2.1) ∨
      (∃ id, ret = (authorization.GetUser s db id).1) ∨
      (∃ n, ret = (authorization.FindUser s db n).1) ∨
      (∃ id U, ret = (authorization.UpdateUser s db id U).2.1) ∨
      (∃ U, ret = (authorization.AuthenticateUser s db U).1) ∨
      ret ∈ (authorization.GetUsers s db).1) :
    ret.Password = "" ∧
    ret.json = [("id", json.Value.uuid ret.ID), ("username", json.Value.string ret.Username)] ∧
    ∀ m ∈ ret.json, m.1 ≠ "password" := by
  have hpw : ret.Password = "" := by
    rcases h with ⟨u, rfl⟩ | ⟨id, rfl⟩ | ⟨n, rfl⟩ | ⟨id, U, rfl⟩ | ⟨U, rfl⟩ | hmem
    · unfold authorization.AddUser
      dsimp only
      split_ifs <;> rfl
    · unfold authorization.GetUser
      dsimp only
      split_ifs <;> rfl
    · unfold authorization.FindUser
      dsimp only
      split_ifs <;> rfl
    · unfold authorization.UpdateUser
      dsimp only
      split_ifs <;> rfl
    · unfold authorization.AuthenticateUser
      dsimp only
      split_ifs <;> rfl
    · unfold authorization.GetUsers at hmem
      dsimp only at hmem
      split_ifs at hmem
      · simp at hmem
      · obtain ⟨x, -, rfl⟩ := List.mem_map.1 hmem
        rfl
  have hjson : ret.json
      = [("id", json.Value.uuid ret.ID), ("username", json.Value.string ret.Username)] := by
    simp [authorization.User.json, hpw]
  refine ⟨hpw, hjson, ?_⟩
  intro m hm
  rw [hjson] at hm
  simp only [List.mem_cons, List.mem_singleton, List.not_mem_nil, or_false] at hm
  rcases hm with rfl | rfl
  · show "id" ≠ "password"
    decide
  · show "username" ≠ "password"
    decide

/-- C15 at a concrete input: the User `AddUser` returns for "alice" with
password "s3cret". -/
theorem no_password_exposed_witness :
    (authorization.AddUser
        (authorization.sqliteSvc ⟨fun pw _ => ("argon2id$" ++ pw, none),
          fun pw h => (decide (h = "argon2id$" ++ pw), none)⟩ {} ⟨5, 7⟩)
        [] { Username := "alice", Password := "s3cret" }).2.1.Password = "" :=
  (no_password_exposed
    (authorization.sqliteSvc ⟨fun pw _ => ("argon2id$" ++ pw, none),
      fun pw h => (decide (h = "argon2id$" ++ pw), none)⟩ {} ⟨5, 7⟩) [] _
    (Or.inl ⟨{ Username := "alice", Password := "s3cret" }, rfl⟩)).1

/-! ## Facts about `UpdateUser` -/

namespace authorization

/-- The row `newStoredUser` makes of a patch. -/
theorem newStoredUser_eq (a : argon2id.Funcs) (U : User) (p : argon2id.Params) :
    newStoredUser a U p =
      (⟨{}, U.ID, U.Username,
          (if U.Password ≠ "" then a.HashPassword U.Password p else ("", none)).1⟩,
        (if U.Password ≠ "" then a.HashPassword U.Password p else ("", none)).2) := rfl

/-- The body of `UpdateUser` for a patch whose id is nil or the id of the call. -/
theorem UpdateUser_consistent {σ : Type} (s : dbSvc σ) (db : σ) (id : uuid.UUID) (U : User)
    (h : U.ID = uuid.Nil ∨ U.ID = id) :
    UpdateUser s db id U =
      if (s.db.ModelFirst db { ID := id } {}).2 ≠ none then
        (db, {}, (s.db.ModelFirst db { ID := id } {}).2)
      else if (s.db.ModelUpdates db
          (newStoredUser s.hasher { U with ID := id } s.hashParams).1).2.2 ≠ none then
        ((s.db.ModelUpdates db (newStoredUser s.hasher { U with ID := id } s.hashParams).1).1, {},
          (s.db.ModelUpdates db (newStoredUser s.hasher { U with ID := id } s.hashParams).1).2.2)
      else
        ((s.db.ModelUpdates db (newStoredUser s.hasher { U with ID := id } s.hashParams).1).1,
          (s.db.ModelFirst
            (s.db.ModelUpdates db (newStoredUser s.hasher { U with ID := id } s.hashParams).1).1
            { ID := id }
            (s.db.ModelUpdates db
              (newStoredUser s.hasher { U with ID := id } s.hashParams).1).2.1).1.ToUser,
          none) := by
  obtain ⟨i, n, pw⟩ := U
  by_cases h0 : i = uuid.Nil
  · subst h0
    by_cases h1 : (s.db.ModelFirst db { ID := id } {}).2 = none
    · simp [UpdateUser, h1]
    · simp [UpdateUser, h1]
  · have hi : i = id := by
      rcases h with h | h
      · exact absurd h h0
      · exact h
    subst hi
    by_cases h1 : (s.db.ModelFirst db { ID := i } {}).2 = none
    · simp [UpdateUser, h0, h1]
    · simp [UpdateUser, h0, h1]

/-- The table a successful `Model(&u).Updates(u)` leaves. -/
theorem ModelUpdates_ok (env : gorm.Env) (rows : sqlite.Rows) (u : storedUser)
    (hok : (sqlite.ModelUpdates env rows u).2.2 = none) :
    (sqlite.ModelUpdates env rows u).1 =
      rows.map (fun r =>
        if r.ID = u.ID ∧ r.Model.DeletedAt = none then sqlite.assign env.now u r else r) := by
  unfold sqlite.ModelUpdates at hok ⊢
  dsimp only at hok ⊢
  split_ifs at hok ⊢
  rfl

/-- The table a successful `UpdateUser` leaves on a working database. -/
theorem UpdateUser_ok (a : argon2id.Funcs) (p : argon2id.Params) (env : gorm.Env)
    (rows : sqlite.Rows) (id : uuid.UUID) (U : User) (hid : U.ID = uuid.Nil ∨ U.ID = id)
    (hok : (UpdateUser (sqliteSvc a p env) rows id U).2.2 = none) :
    (UpdateUser (sqliteSvc a p env) rows id U).1 =
      rows.map (fun r =>
        if r.ID = id ∧ r.Model.DeletedAt = none then
          sqlite.assign env.now (newStoredUser a { U with ID := id } p).1 r
        else r) := by
  rw [UpdateUser_consistent _ _ _ _ hid] at hok ⊢
  split_ifs at hok ⊢ with h1 h2
  · exact absurd hok h1
  · exact absurd hok h2
  · have h3 : (sqlite.ModelUpdates env rows (newStoredUser a { U with ID := id } p).1).2.2
        = none := not_not.1 h2
    exact ModelUpdates_ok env rows _ h3

end authorization

/-- A refused update persists nothing, at a concrete input: "alice" (id `1`) and
"bob" (id `2`) are stored, and `UpdateUser(1, patch)` with the Username "bob" and
the Password "hunter2" hashes the password without error, but the update is
refused for the username that is taken, and the table is the one before the
call. -/
theorem UpdateUser_password_conflict :
    (authorization.UpdateUser
        (authorization.sqliteSvc ⟨fun pw _ => ("argon2id$" ++ pw, none),
          fun pw h => (decide (h = "argon2id$" ++ pw), none)⟩ {} ⟨5, 7⟩)
        [{ ID := 1, Username := "alice", PasswordHash := "argon2id$s3cret" },
         { ID := 2, Username := "bob", PasswordHash := "argon2id$qwerty" }] 1
        { Username := "bob", Password := "hunter2" })
      = ([{ ID := 1, Username := "alice", PasswordHash := "argon2id$s3cret" },
          { ID := 2, Username := "bob", PasswordHash := "argon2id$qwerty" }], {},
          some GoError.sqlite_ErrConstraintUnique) ∧
    (authorization.newStoredUser
        ⟨fun pw _ => ("argon2id$" ++ pw, none), fun pw h => (decide (h = "argon2id$" ++ pw), none)⟩
        { ID := 1, Username := "bob", Password := "hunter2" } {})
      = ({ ID := 1, Username := "bob", PasswordHash := "argon2id$hunter2" }, none) ∧
    ("argon2id$s3cret" : String) ≠ "argon2id$hunter2" := by
  decide

/-- A call of `UpdateUser` that fails persists nothing, on a working database:
with a non-nil error the table is the one before the call. -/
theorem UpdateUser_failure_persists_nothing (a : argon2id.Funcs) (p : argon2id.Params)
    (env : gorm.Env) (rows : authorization.sqlite.Rows) (id : uuid.UUID)
    (U : authorization.User)
    (hfail : (authorization.UpdateUser (authorization.sqliteSvc a p env) rows id U).2.2 ≠ none) :
    (authorization.UpdateUser (authorization.sqliteSvc a p env) rows id U).1 = rows := by
  by_cases hid : U.ID = uuid.Nil ∨ U.ID = id
  · rw [authorization.UpdateUser_consistent _ _ _ _ hid] at hfail ⊢
    split_ifs at hfail ⊢ with h1 h2
    · rfl
    · show (authorization.sqlite.ModelUpdates env rows
        (authorization.newStoredUser a { U with ID := id } p).1).1 = rows
      have h3 : (authorization.sqlite.ModelUpdates env rows
          (authorization.newStoredUser a { U with ID := id } p).1).2.2 ≠ none := h2
      unfold authorization.sqlite.ModelUpdates at h3 ⊢
      dsimp only at h3 ⊢
      split_ifs at h3 ⊢
      · rfl
      · rfl
      · exact absurd rfl h3
    · exact absurd rfl hfail
  · have h0 : U.ID ≠ uuid.Nil := fun h => hid (Or.inl h)
    have h1 : U.ID ≠ id := fun h => hid (Or.inr h)
    simp [authorization.UpdateUser, h0, h1]

/-- C16, as stated, fails: "alice" (id `1`) is stored with the hash of "s3cret",
and the hasher returns the empty string and no error for "hunter2".
`UpdateUser(1, patch)` with the Password "hunter2" succeeds, and the stored hash
is the one before the call, not the output of the hasher: `Updates` does not
write an empty hash. -/
theorem UpdateUser_password_empty_hash :
    (authorization.newStoredUser
        ⟨fun _ _ => ("", none), fun pw h => (decide (h = "argon2id$" ++ pw), none)⟩
        { ID := 1, Password := "hunter2" } {})
      = ({ ID := 1, PasswordHash := "" }, none) ∧
    authorization.UpdateUser
        (authorization.sqliteSvc ⟨fun _ _ => ("", none),
          fun pw h => (decide (h = "argon2id$" ++ pw), none)⟩ {} ⟨5, 7⟩)
        [{ ID := 1, Username := "alice", PasswordHash := "argon2id$s3cret" }] 1
        { Password := "hunter2" }
      = ([{ Model := { UpdatedAt := 5 }, ID := 1, Username := "alice",
            PasswordHash := "argon2id$s3cret" }],
          { ID := 1, Username := "alice" }, none) ∧
    ("argon2id$s3cret" : String) ≠ "" := by
  decide

/-- C16, amended: on a working database, for a patch whose ID is nil or `id` and
a successful `UpdateUser(id, patch)`: if the Password of the patch is empty, every
row keeps its id and its password hash, so that every password compares with it
as before, and the hasher has no part in the call, which gives the same for any
other hasher; if the Password of the patch is not empty and the hasher gives a
hash that is not the empty string, then the stored live row with that id
carries the hash the hasher gave for that Password under the parameters of the
service. -/
theorem UpdateUser_password (a : argon2id.Funcs) (p : argon2id.Params) (env : gorm.Env)
    (rows : authorization.sqlite.Rows) (id : uuid.UUID) (U : authorization.User)
    (hid : U.ID = uuid.Nil ∨ U.ID = id)
    (hok : (authorization.UpdateUser (authorization.sqliteSvc a p env) rows id U).2.2 = none) :
    (U.Password = "" →
      List.Forall₂
        (fun before after : authorization.storedUser =>
          after.ID = before.ID ∧ after.PasswordHash = before.PasswordHash ∧
          ∀ pw, after.ComparePassword a pw = before.ComparePassword a pw)
        rows (authorization.UpdateUser (authorization.sqliteSvc a p env) rows id U).1 ∧
      ∀ a2 : argon2id.Funcs,
        authorization.UpdateUser (authorization.sqliteSvc a2 p env) rows id U
          = authorization.UpdateUser (authorization.sqliteSvc a p env) rows id U) ∧
    (U.Password ≠ "" → (a.HashPassword U.Password p).1 ≠ "" →
      (∀ r ∈ rows, r.ID = id → r.Model.DeletedAt = none →
        ∃ r2 ∈ (authorization.UpdateUser (authorization.sqliteSvc a p env) rows id U).1,
          r2.ID = id ∧ r2.Model.DeletedAt = none ∧
          r2.PasswordHash = (a.HashPassword U.Password p).1) ∧
      (∀ r2 ∈ (authorization.UpdateUser (authorization.sqliteSvc a p env) rows id U).1,
        r2.ID = id → r2.Model.DeletedAt = none →
          r2.PasswordHash = (a.HashPassword U.Password p).1)) := by
  have htab := authorization.UpdateUser_ok a p env rows id U hid hok
  refine ⟨?_, ?_⟩
  · intro hpw
    refine ⟨?_, ?_⟩
    · rw [htab]
      refine List.forall₂_map_right_iff.2 (List.forall₂_same.2 (fun x _ => ?_))
      have hh : (if x.ID = id ∧ x.Model.DeletedAt = none then
            authorization.sqlite.assign env.now
              (authorization.newStoredUser a { U with ID := id } p).1 x
          else x).PasswordHash = x.PasswordHash := by
        split
        · simp [authorization.sqlite.assign, authorization.newStoredUser_eq, hpw]
        · rfl
      refine ⟨?_, hh, ?_⟩
      · split <;> rfl
      · intro pw
        unfold authorization.storedUser.ComparePassword
        rw [hh]
    · intro a2
      rw [authorization.UpdateUser_consistent _ _ _ _ hid,
        authorization.UpdateUser_consistent _ _ _ _ hid]
      simp [authorization.sqliteSvc, authorization.newStoredUser_eq, hpw]
  · intro hpw hne
    have hassign : ∀ x : authorization.storedUser,
        (authorization.sqlite.assign env.now
          (authorization.newStoredUser a { U with ID := id } p).1 x).PasswordHash
          = (a.HashPassword U.Password p).1 ∧
        (authorization.sqlite.assign env.now
          (authorization.newStoredUser a { U with ID := id } p).1 x).ID = x.ID ∧
        (authorization.sqlite.assign env.now
          (authorization.newStoredUser a { U with ID := id } p).1 x).Model.DeletedAt
          = x.Model.DeletedAt := by
      intro x
      simp [authorization.sqlite.assign, authorization.newStoredUser_eq, hpw, hne]
    refine ⟨?_, ?_⟩
    · intro r hr hri hrl
      refine ⟨authorization.sqlite.assign env.now
        (authorization.newStoredUser a { U with ID := id } p).1 r, ?_, ?_, ?_, ?_⟩
      · rw [htab]
        refine List.mem_map.2 ⟨r, hr, ?_⟩
        rw [if_pos ⟨hri, hrl⟩]
      · rw [(hassign r).2.1, hri]
      · rw [(hassign r).2.2, hrl]
      · exact (hassign r).1
    · intro r2 hr2 hi hl
      rw [htab] at hr2
      obtain ⟨x, -, rfl⟩ := List.mem_map.1 hr2
      by_cases hc : x.ID = id ∧ x.Model.DeletedAt = none
      · rw [if_pos hc]
        exact (hassign x).1
      · rw [if_neg hc] at hi hl
        exact absurd ⟨hi, hl⟩ hc

/-- C16, amended, at concrete inputs: "alice" renamed without a password, and
"alice" given the password "hunter2". -/
theorem UpdateUser_password_witness :
    List.Forall₂
      (fun before after : authorization.storedUser =>
        after.ID = before.ID ∧ after.PasswordHash = before.PasswordHash ∧
        ∀ pw, after.ComparePassword
          ⟨fun pw _ => ("argon2id$" ++ pw, none),
            fun pw h => (decide (h = "argon2id$" ++ pw), none)⟩ pw
          = before.ComparePassword
            ⟨fun pw _ => ("argon2id$" ++ pw, none),
              fun pw h => (decide (h = "argon2id$" ++ pw), none)⟩ pw)
      [{ ID := 1, Username := "alice", PasswordHash := "argon2id$s3cret" }]
      (authorization.UpdateUser
        (authorization.sqliteSvc ⟨fun pw _ => ("argon2id$" ++ pw, none),
          fun pw h => (decide (h = "argon2id$" ++ pw), none)⟩ {} ⟨5, 7⟩)
        [{ ID := 1, Username := "alice", PasswordHash := "argon2id$s3cret" }] 1
        { Username := "alicia" }).1 ∧
    ∃ r2 ∈ (authorization.UpdateUser
        (authorization.sqliteSvc ⟨fun pw _ => ("argon2id$" ++ pw, none),
          fun pw h => (decide (h = "argon2id$" ++ pw), none)⟩ {} ⟨5, 7⟩)
        [{ ID := 1, Username := "alice", PasswordHash := "argon2id$s3cret" }] 1
        { Password := "hunter2" }).1,
      r2.ID = 1 ∧ r2.Model.DeletedAt = none ∧ r2.PasswordHash = "argon2id$hunter2" :=
  ⟨((UpdateUser_password ⟨fun pw _ => ("argon2id$" ++ pw, none),
        fun pw h => (decide (h = "argon2id$" ++ pw), none)⟩ {} ⟨5, 7⟩
      [{ ID := 1, Username := "alice", PasswordHash := "argon2id$s3cret" }] 1
      { Username := "alicia" } (Or.inl rfl) (by decide)).1 rfl).1,
   ((UpdateUser_password ⟨fun pw _ => ("argon2id$" ++ pw, none),
        fun pw h => (decide (h = "argon2id$" ++ pw), none)⟩ {} ⟨5, 7⟩
      [{ ID := 1, Username := "alice", PasswordHash := "argon2id$s3cret" }] 1
      { Password := "hunter2" } (Or.inl rfl) (by decide)).2 (by decide) (by decide)).1
      { ID := 1, Username := "alice", PasswordHash := "argon2id$s3cret" } (by simp) rfl rfl⟩

/-- C17: on a working database, a successful `AddTodo` returns a Todo whose ID
is not nil, is the candidate's ID if that is not nil, and whose Title,
Description and OwnerID are the candidate's; a successful `AddUser` returns a
User whose ID is not nil, is the candidate's ID if that is not nil, and whose
Username is the candidate's. -/
theorem create_assigns_id :
    (∀ (env : gorm.Env) (rows : todo.sqlite.Rows) (t : todo.Todo),
      (todo.AddTodo (todo.sqlite env) rows t).2.2 = none →
      (todo.AddTodo (todo.sqlite env) rows t).2.1.ID ≠ uuid.Nil ∧
      (t.ID ≠ uuid.Nil → (todo.AddTodo (todo.sqlite env) rows t).2.1.ID = t.ID) ∧
      (todo.AddTodo (todo.sqlite env) rows t).2.1.Title = t.Title ∧
      (todo.AddTodo (todo.sqlite env) rows t).2.1.Description = t.Description ∧
      (todo.AddTodo (todo.sqlite env) rows t).2.1.OwnerID = t.OwnerID) ∧
    (∀ (a : argon2id.Funcs) (p : argon2id.Params) (env : gorm.Env)
      (rows : authorization.sqlite.Rows) (u : authorization.User),
      (authorization.AddUser (authorization.sqliteSvc a p env) rows u).2.2 = none →
      (authorization.AddUser (authorization.sqliteSvc a p env) rows u).2.1.ID ≠ uuid.Nil ∧
      (u.ID ≠ uuid.Nil →
        (authorization.AddUser (authorization.sqliteSvc a p env) rows u).2.1.ID = u.ID) ∧
      (authorization.AddUser (authorization.sqliteSvc a p env) rows u).2.1.Username
        = u.Username) := by
  refine ⟨?_, ?_⟩
  · intro env rows t hok
    obtain ⟨-, row, hid, hti, hde, how, -, -, hadd⟩ := todo.AddTodo_success env rows t hok
    rw [hadd]
    refine ⟨?_, ?_, hti, hde, how⟩
    · show row.ID ≠ uuid.Nil
      rw [hid]
      split
      · exact uuid_New_ne_Nil env.rand
      · assumption
    · intro hne
      show row.ID = t.ID
      rw [hid, if_neg hne]
  · intro a p env rows u hok
    obtain ⟨-, -, -, row, hid, hun, -, -, -, -, hadd⟩ :=
      authorization.AddUser_success a p env rows u hok
    rw [hadd]
    refine ⟨?_, ?_, ?_⟩
    · show row.ID ≠ uuid.Nil
      rw [hid]
      split
      · exact uuid_New_ne_Nil env.rand
      · assumption
    · intro hne
      show row.ID = u.ID
      rw [hid, if_neg hne]
    · show row.Username = u.Username
      exact hun

/-- C17 at concrete inputs: a Todo without id and a User with the id `5`. -/
theorem create_assigns_id_witness :
    (todo.AddTodo (todo.sqlite ⟨5, 7⟩) [] { Title := "buy milk", OwnerID := 2 }).2.1.ID
      ≠ uuid.Nil ∧
    (authorization.AddUser
        (authorization.sqliteSvc ⟨fun pw _ => ("argon2id$" ++ pw, none),
          fun pw h => (decide (h = "argon2id$" ++ pw), none)⟩ {} ⟨5, 7⟩)
        [] { ID := 5, Username := "alice", Password := "s3cret" }).2.1.ID = 5 :=
  ⟨(create_assigns_id.1 ⟨5, 7⟩ [] { Title := "buy milk", OwnerID := 2 } (by decide)).1,
   (create_assigns_id.2 ⟨fun pw _ => ("argon2id$" ++ pw, none),
      fun pw h => (decide (h = "argon2id$" ++ pw), none)⟩ {} ⟨5, 7⟩ []
      { ID := 5, Username := "alice", Password := "s3cret" } (by decide)).2.1 (by decide)⟩

/-- C18: `encodeError` of the Task transport evaluated on `ErrOwnerChanged`: the
status written is `500`, where the claim asks for `400`; the switch has cases
for `ErrNotFound` (`404`), `ErrInconsistentIDs` and `ErrOwnerMissing` (`400`)
only.  The body is the object with the one member "error". -/
theorem encodeError_owner_changed :
    (todo.encodeError todo.ErrOwnerChanged {}).StatusCode = some 500 ∧
    (todo.encodeError todo.ErrOwnerChanged {}).Body
      = [[("error", json.Value.string "owner_id changed")]] ∧
    (todo.encodeError todo.ErrOwnerMissing {}).StatusCode = some 400 ∧
    (todo.encodeError todo.ErrInconsistentIDs {}).StatusCode = some 400 ∧
    (todo.encodeError todo.ErrNotFound {}).StatusCode = some 404 ∧
    (todo.encodeError gorm.ErrRecordNotFound {}).StatusCode = some 500 := by
  decide

/-- C19: `encodeError` of the Identity transport evaluated on `ErrNotFound` and
on `ErrInconsistentIDs`: the status written is `500` for both, where the claim
asks for `404` and `400`; the switch has cases for `ErrInvalidUserObject`
(`400`) and `ErrAuthenticationFailed` (`401`) only. -/
theorem encodeError_user_not_found :
    (authorization.transport.encodeError authorization.ErrNotFound {}).StatusCode = some 500 ∧
    (authorization.transport.encodeError authorization.ErrInconsistentIDs {}).StatusCode
      = some 500 ∧
    (authorization.transport.encodeError authorization.ErrInvalidUserObject {}).StatusCode
      = some 400 ∧
    (authorization.transport.encodeError authorization.ErrAuthenticationFailed {}).StatusCode
      = some 401 ∧
    (authorization.transport.encodeError gorm.ErrRecordNotFound {}).StatusCode = some 500 := by
  decide

theorem WriteHeader_Body (w : http.ResponseWriter) (code : Nat) :
    (w.WriteHeader code).Body = w.Body := by
  unfold http.ResponseWriter.WriteHeader
  split <;> rfl

theorem encode_after_WriteHeader_Body (w : http.ResponseWriter) (code : Nat)
    (obj : json.Object) :
    (((w.HeaderSet "Content-Type" "application/json; charset=utf-8").WriteHeader code).Encode
      obj).Body = w.Body ++ [obj] := by
  show ((w.HeaderSet "Content-Type" "application/json; charset=utf-8").WriteHeader code).Body
    ++ [obj] = w.Body ++ [obj]
  rw [WriteHeader_Body]
  rfl

/-- What `encodeError` of the Task transport writes, for every error: the body
is the object with the one member "error" that holds the message, and on a
writer without status the status is `404` for `ErrNotFound`, `400` for
`ErrInconsistentIDs` and `ErrOwnerMissing`, and `500` for every other error. -/
theorem todo_encodeError_writes (err : GoError) (w : http.ResponseWriter) :
    (todo.encodeError err w).Body = w.Body ++ [[("error", json.Value.string err.Error)]] ∧
    (w.StatusCode = none →
      (todo.encodeError err w).StatusCode =
        some (if err = todo.ErrNotFound then 404
          else if err = todo.ErrInconsistentIDs ∨ err = todo.ErrOwnerMissing then 400
          else 500)) := by
  refine ⟨?_, ?_⟩
  · unfold todo.encodeError
    dsimp only
    split_ifs <;> exact encode_after_WriteHeader_Body _ _ _
  · intro hw
    unfold todo.encodeError
    dsimp only
    split_ifs <;>
      simp_all [http.ResponseWriter.Encode, http.ResponseWriter.WriteHeader,
        http.ResponseWriter.HeaderSet, http.StatusNotFound, http.StatusBadRequest,
        http.StatusInternalServerError]

/-- What `encodeError` of the Identity transport writes, for every error: the
body is the object with the one member "error" that holds the message, and on a
writer without status the status is `400` for `ErrInvalidUserObject`, `401` for
`ErrAuthenticationFailed`, and `500` for every other error. -/
theorem authorization_encodeError_writes (err : GoError) (w : http.ResponseWriter) :
    (authorization.transport.encodeError err w).Body
      = w.Body ++ [[("error", json.Value.string err.Error)]] ∧
    (w.StatusCode = none →
      (authorization.transport.encodeError err w).StatusCode =
        some (if err = authorization.ErrInvalidUserObject then 400
          else if err = authorization.ErrAuthenticationFailed then 401
          else 500)) := by
  refine ⟨?_, ?_⟩
  · unfold authorization.transport.encodeError
    dsimp only
    split_ifs <;> exact encode_after_WriteHeader_Body _ _ _
  · intro hw
    unfold authorization.transport.encodeError
    dsimp only
    split_ifs <;>
      simp_all [http.ResponseWriter.Encode, http.ResponseWriter.WriteHeader,
        http.ResponseWriter.HeaderSet, http.StatusUnauthorized, http.StatusBadRequest,
        http.StatusInternalServerError]

/-- C20, as stated, fails: for the query `owner=00000000-0000-0000-0000-000000000000`
the parameter parses as the all-zero UUID, the request is decoded without error,
and the endpoint answers with the result of `GetTodos`, the unfiltered list,
here a Todo of owner `2`. -/
theorem GetTodos_owner_zero :
    uuid.parseCanonical "00000000-0000-0000-0000-000000000000" = some uuid.Nil ∧
    todo.decodeHTTPGetTodosRequest uuid.parseCanonical
        [("owner", ["00000000-0000-0000-0000-000000000000"])]
      = (some (todo.Request.getTodos { OwnerID := uuid.Nil }), none) ∧
    todo.makeGetTodosEndpoint (todo.dbSvc (todo.sqlite ⟨5, 7⟩) todo.sqliteConn)
        [{ ID := 1, Title := "buy milk", OwnerID := 2 }]
        (todo.Request.getTodos { OwnerID := uuid.Nil })
      = todo.Outcome.ok ([{ ID := 1, Title := "buy milk", OwnerID := 2 }],
          todo.Response.getTodos { Todos := [{ ID := 1, Title := "buy milk", OwnerID := 2 }] },
          none) ∧
    todo.GetTodos (todo.sqlite ⟨5, 7⟩) [{ ID := 1, Title := "buy milk", OwnerID := 2 }]
      = ([{ ID := 1, Title := "buy milk", OwnerID := 2 }], none) := by
  decide

/-- C20, amended: for every query, whatever `uuid.Parse` accepts and whatever
the service: without a parameter `owner` the request decoded carries the nil
owner and the endpoint answers with the result of `GetTodos`; with a parameter
`owner` that parses as `u` the request decoded carries `u`, and the endpoint
answers with the result of `GetTodosOwned` for the owner `u` if `u` is not the
nil UUID, and with the result of `GetTodos` if it is; with a parameter `owner`
that does not parse, decoding gives no request and the error `ErrInvalidUUID`. -/
theorem GetTodos_dispatch {σ : Type} (parse : String → Option uuid.UUID) (s : todo.Service σ)
    (db : σ) (q : url.Values) :
    (q.Has "owner" = false →
      todo.decodeHTTPGetTodosRequest parse q = (some (todo.Request.getTodos {}), none) ∧
      todo.makeGetTodosEndpoint s db (todo.Request.getTodos {})
        = todo.Outcome.ok ((s.GetTodos db).1,
            todo.Response.getTodos { Todos := (s.GetTodos db).2.1, Err := (s.GetTodos db).2.2 },
            none)) ∧
    (∀ u : uuid.UUID, q.Has "owner" = true → parse (q.Get "owner") = some u →
      todo.decodeHTTPGetTodosRequest parse q
        = (some (todo.Request.getTodos { OwnerID := u }), none) ∧
      (u ≠ uuid.Nil →
        todo.makeGetTodosEndpoint s db (todo.Request.getTodos { OwnerID := u })
          = todo.Outcome.ok ((s.GetTodosOwned db { ID := u }).1,
              todo.Response.getTodos { Todos := (s.GetTodosOwned db { ID := u }).2.1,
                                       Err := (s.GetTodosOwned db { ID := u }).2.2 },
              none)) ∧
      (u = uuid.Nil →
        todo.makeGetTodosEndpoint s db (todo.Request.getTodos { OwnerID := u })
          = todo.Outcome.ok ((s.GetTodos db).1,
              todo.Response.getTodos { Todos := (s.GetTodos db).2.1,
                                       Err := (s.GetTodos db).2.2 },
              none))) ∧
    (q.Has "owner" = true → parse (q.Get "owner") = none →
      todo.decodeHTTPGetTodosRequest parse q = (none, some todo.ErrInvalidUUID)) := by
  refine ⟨?_, ?_, ?_⟩
  · intro h
    refine ⟨?_, ?_⟩
    · simp [todo.decodeHTTPGetTodosRequest, h]
    · simp [todo.makeGetTodosEndpoint]
  · intro u h hp
    refine ⟨?_, ?_, ?_⟩
    · simp [todo.decodeHTTPGetTodosRequest, h, hp]
    · intro hu
      simp [todo.makeGetTodosEndpoint, hu]
    · intro hu
      simp [todo.makeGetTodosEndpoint, hu]
  · intro h hp
    simp [todo.decodeHTTPGetTodosRequest, h, hp]

/-- C20, amended, at concrete inputs: the query `owner=00000000-0000-0000-0000-000000000002`
on a table with Todos of the owners `2` and `4`, and the query `owner=nonsense`. -/
theorem GetTodos_dispatch_witness :
    todo.makeGetTodosEndpoint (todo.dbSvc (todo.sqlite ⟨5, 7⟩) todo.sqliteConn)
        [{ ID := 1, Title := "buy milk", OwnerID := 2 }, { ID := 3, OwnerID := 4 }]
        (todo.Request.getTodos { OwnerID := 2 })
      = todo.Outcome.ok
          (((todo.dbSvc (todo.sqlite ⟨5, 7⟩) todo.sqliteConn).GetTodosOwned
              [{ ID := 1, Title := "buy milk", OwnerID := 2 }, { ID := 3, OwnerID := 4 }]
              { ID := 2 }).1,
            todo.Response.getTodos
              { Todos := ((todo.dbSvc (todo.sqlite ⟨5, 7⟩) todo.sqliteConn).GetTodosOwned
                  [{ ID := 1, Title := "buy milk", OwnerID := 2 }, { ID := 3, OwnerID := 4 }]
                  { ID := 2 }).2.1,
                Err := ((todo.dbSvc (todo.sqlite ⟨5, 7⟩) todo.sqliteConn).GetTodosOwned
                  [{ ID := 1, Title := "buy milk", OwnerID := 2 }, { ID := 3, OwnerID := 4 }]
                  { ID := 2 }).2.2 },
            none) ∧
    todo.decodeHTTPGetTodosRequest uuid.parseCanonical [("owner", ["nonsense"])]
      = (none, some todo.ErrInvalidUUID) :=
  ⟨((GetTodos_dispatch uuid.parseCanonical (todo.dbSvc (todo.sqlite ⟨5, 7⟩) todo.sqliteConn)
      [{ ID := 1, Title := "buy milk", OwnerID := 2 }, { ID := 3, OwnerID := 4 }]
      [("owner", ["00000000-0000-0000-0000-000000000002"])]).2.1 2 (by decide) (by decide)).2.1
      (by decide),
   (GetTodos_dispatch uuid.parseCanonical (todo.dbSvc (todo.sqlite ⟨5, 7⟩) todo.sqliteConn)
      [] [("owner", ["nonsense"])]).2.2 (by decide) (by decide)⟩

/-! ## The claims on store failures and endpoints -/

/-- Which errors of the store the Task service hands on, for every store: the
error of `Create` is returned by `AddTodo`, an error of `First` other than
`ErrRecordNotFound` by `GetTodo`, and the error of `Delete` by `DeleteTodo`,
while `GetTodos` and `GetTodosOwned` answer an error of `Find` with the empty
list and a nil error, and `UpdateTodo` answers an error of `Updates` with
`Todo{}` and a nil error. -/
theorem store_errors {σ : Type} (s : todo.Store σ) (db : σ) (e : GoError) :
    (∀ t : todo.Todo, t.OwnerID ≠ uuid.Nil → (s.Create db t).2.2 = some e →
      (todo.AddTodo s db t).2 = ({}, some e)) ∧
    (∀ id : uuid.UUID, e ≠ gorm.ErrRecordNotFound → (s.First db {} id).2 = some e →
      (todo.GetTodo s db id).2 = some e) ∧
    (∀ id : uuid.UUID, (todo.DeleteTodo s db id).2 = (s.Delete db {} id).2) ∧
    ((s.Find db).2 = some e → todo.GetTodos s db = ([], none)) ∧
    (∀ u : authorization.User, (s.WhereFind db { OwnerID := u.ID }).2 = some e →
      todo.GetTodosOwned s db u = ([], none)) ∧
    (∀ (id : uuid.UUID) (t cur : todo.Todo), t.ID = uuid.Nil ∨ t.ID = id →
      todo.GetTodo s db id = (cur, none) →
      (t.OwnerID = uuid.Nil ∨ cur.OwnerID = t.OwnerID) →
      (s.ModelUpdates db { cur with Title := t.Title, Description := t.Description }).2
        = some e →
      (todo.UpdateTodo s db id t).2 = ({}, none)) := by
  refine ⟨?_, ?_, ?_, ?_, ?_, ?_⟩
  · intro t ho he
    simp [todo.AddTodo, ho, he]
  · intro id hne he
    simp [todo.GetTodo, he, hne]
  · intro id
    rfl
  · intro he
    simp [todo.GetTodos, he]
  · intro u he
    simp [todo.GetTodosOwned, he]
  · intro id t cur hid hget ho he
    have hown : ¬ (t.OwnerID ≠ uuid.Nil ∧ cur.OwnerID ≠ t.OwnerID) := by
      rintro ⟨h1, h2⟩
      rcases ho with h | h
      · exact h1 h
      · exact h2 h
    rw [todo.UpdateTodo_consistent _ _ _ _ hid, hget]
    simp [hown, he]

/-- C21: the Task service evaluated on stores of which one call fails with a
driver error: with a failing `Find`, `GetTodos` returns the empty list and a nil
error, and so does `GetTodosOwned`; with a failing `Updates`, `UpdateTodo`
returns `Todo{}` and a nil error, with nothing written.  The claim asks for the
error of the store in all three.  `DeleteTodo` with a failing `Delete` returns
the error. -/
theorem store_error_swallowed :
    todo.GetTodos
        { todo.sqlite ⟨5, 7⟩ with Find := fun _ => ([], some (GoError.driver 1)) }
        [{ ID := 1, Title := "buy milk", OwnerID := 2 }]
      = ([], none) ∧
    todo.GetTodosOwned
        { todo.sqlite ⟨5, 7⟩ with WhereFind := fun _ _ => ([], some (GoError.driver 1)) }
        [{ ID := 1, Title := "buy milk", OwnerID := 2 }] { ID := 2 }
      = ([], none) ∧
    todo.UpdateTodo
        { todo.sqlite ⟨5, 7⟩ with ModelUpdates := fun db _ => (db, some (GoError.driver 1)) }
        [{ ID := 1, Title := "buy milk", OwnerID := 2 }] 1 { Title := "buy oat milk" }
      = ([{ ID := 1, Title := "buy milk", OwnerID := 2 }], {}, none) ∧
    todo.DeleteTodo
        { todo.sqlite ⟨5, 7⟩ with Delete := fun db _ _ => (db, some (GoError.driver 1)) }
        [{ ID := 1, Title := "buy milk", OwnerID := 2 }] 1
      = ([{ ID := 1, Title := "buy milk", OwnerID := 2 }], some (GoError.driver 1)) := by
  decide

/-- C22, as stated, fails: in `MakeServerEndpoints(s)` the field
`GetTodosOwnedEndpoint` is not set, and `GetTodosEndpoint`, invoked with a
request that names the owner `2`, returns the result of `GetTodosOwned`, one
Todo, where `GetTodos` returns two. -/
theorem MakeServerEndpoints_gaps :
    (todo.MakeServerEndpoints
        (todo.dbSvc (todo.sqlite ⟨5, 7⟩) todo.sqliteConn)).GetTodosOwnedEndpoint.isNone = true ∧
    todo.callEndpoint
        (todo.MakeServerEndpoints
          (todo.dbSvc (todo.sqlite ⟨5, 7⟩) todo.sqliteConn)).GetTodosEndpoint
        [{ ID := 1, Title := "buy milk", OwnerID := 2 }, { ID := 3, OwnerID := 4 }]
        (todo.Request.getTodos { OwnerID := 2 })
      = todo.Outcome.ok
          ([{ ID := 1, Title := "buy milk", OwnerID := 2 }, { ID := 3, OwnerID := 4 }],
            todo.Response.getTodos { Todos := [{ ID := 1, Title := "buy milk", OwnerID := 2 }] },
            none) ∧
    (todo.dbSvc (todo.sqlite ⟨5, 7⟩) todo.sqliteConn).GetTodos
        [{ ID := 1, Title := "buy milk", OwnerID := 2 }, { ID := 3, OwnerID := 4 }]
      = ([{ ID := 1, Title := "buy milk", OwnerID := 2 }, { ID := 3, OwnerID := 4 }],
          [{ ID := 1, Title := "buy milk", OwnerID := 2 }, { ID := 3, OwnerID := 4 }], none) := by
  decide

/-- C22, amended: for every service `s`, the fields `AddTodoEndpoint`,
`GetTodoEndpoint`, `UpdateTodoEndpoint`, `DeleteTodoEndpoint`, `GetTodosEndpoint`
and `ServiceStatusEndpoint` of `MakeServerEndpoints(s)` are set and, invoked with
a request of their type, return a nil transport error and a response that holds
the result and the error of the method of `s`; for `GetTodosEndpoint` the method
is `GetTodos` when the request carries the nil owner and `GetTodosOwned` for the
owner of the request otherwise. -/
theorem MakeServerEndpoints_spec {σ : Type} (s : todo.Service σ) (db : σ) :
    ((todo.MakeServerEndpoints s).AddTodoEndpoint.isSome = true ∧
      ∀ req : todo.addTodoRequest,
        todo.callEndpoint (todo.MakeServerEndpoints s).AddTodoEndpoint db
            (todo.Request.addTodo req)
          = todo.Outcome.ok ((s.AddTodo db req.Todo).1,
              todo.Response.addTodo
                { Todo := (s.AddTodo db req.Todo).2.1, Err := (s.AddTodo db req.Todo).2.2 },
              none)) ∧
    ((todo.MakeServerEndpoints s).GetTodoEndpoint.isSome = true ∧
      ∀ req : todo.getTodoRequest,
        todo.callEndpoint (todo.MakeServerEndpoints s).GetTodoEndpoint db
            (todo.Request.getTodo req)
          = todo.Outcome.ok ((s.GetTodo db req.ID).1,
              todo.Response.getTodo
                { Todo := (s.GetTodo db req.ID).2.1, Err := (s.GetTodo db req.ID).2.2 },
              none)) ∧
    ((todo.MakeServerEndpoints s).UpdateTodoEndpoint.isSome = true ∧
      ∀ req : todo.updateTodoRequest,
        todo.callEndpoint (todo.MakeServerEndpoints s).UpdateTodoEndpoint db
            (todo.Request.updateTodo req)
          = todo.Outcome.ok ((s.UpdateTodo db req.ID req.Todo).1,
              todo.Response.updateTodo
                { Todo := (s.UpdateTodo db req.ID req.Todo).2.1,
                  Err := (s.UpdateTodo db req.ID req.Todo).2.2 },
              none)) ∧
    ((todo.MakeServerEndpoints s).DeleteTodoEndpoint.isSome = true ∧
      ∀ req : todo.deleteTodoRequest,
        todo.callEndpoint (todo.MakeServerEndpoints s).DeleteTodoEndpoint db
            (todo.Request.deleteTodo req)
          = todo.Outcome.ok ((s.DeleteTodo db req.ID).1,
              todo.Response.deleteTodo { Err := (s.DeleteTodo db req.ID).2 }, none)) ∧
    ((todo.MakeServerEndpoints s).GetTodosEndpoint.isSome = true ∧
      ∀ req : todo.getTodosRequest,
        todo.callEndpoint (todo.MakeServerEndpoints s).GetTodosEndpoint db
            (todo.Request.getTodos req)
          = if req.OwnerID = uuid.Nil then
              todo.Outcome.ok ((s.GetTodos db).1,
                todo.Response.getTodos
                  { Todos := (s.GetTodos db).2.1, Err := (s.GetTodos db).2.2 },
                none)
            else
              todo.Outcome.ok ((s.GetTodosOwned db { ID := req.OwnerID }).1,
                todo.Response.getTodos
                  { Todos := (s.GetTodosOwned db { ID := req.OwnerID }).2.1,
                    Err := (s.GetTodosOwned db { ID := req.OwnerID }).2.2 },
                none)) ∧
    ((todo.MakeServerEndpoints s).ServiceStatusEndpoint.isSome = true ∧
      ∀ req : todo.serviceStatusRequest,
        todo.callEndpoint (todo.MakeServerEndpoints s).ServiceStatusEndpoint db
            (todo.Request.serviceStatus req)
          = todo.Outcome.ok ((s.ServiceStatus db).1,
              todo.Response.serviceStatus
                { Code := (s.ServiceStatus db).2.1, Err := (s.ServiceStatus db).2.2 },
              none)) := by
  refine ⟨⟨rfl, fun _ => rfl⟩, ⟨rfl, fun _ => rfl⟩, ⟨rfl, fun _ => rfl⟩, ⟨rfl, fun _ => rfl⟩,
    ⟨rfl, fun req => ?_⟩, ⟨rfl, fun _ => rfl⟩⟩
  show todo.makeGetTodosEndpoint s db (todo.Request.getTodos req) = _
  unfold todo.makeGetTodosEndpoint
  dsimp only

/-- The methods of `Endpoints` that hand on the service, for every service `s`
and `e = MakeServerEndpoints(s)`: `e.AddTodo`, `e.GetTodo`, `e.UpdateTodo` and
`e.ServiceStatus` return what the method of `s` returns, with no panic. -/
theorem Endpoints_faithful {σ : Type} (s : todo.Service σ) (db : σ) :
    (∀ t : todo.Todo,
      (todo.MakeServerEndpoints s).AddTodo db t = todo.Outcome.ok (s.AddTodo db t)) ∧
    (∀ id : uuid.UUID,
      (todo.MakeServerEndpoints s).GetTodo db id = todo.Outcome.ok (s.GetTodo db id)) ∧
    (∀ (id : uuid.UUID) (t : todo.Todo),
      (todo.MakeServerEndpoints s).UpdateTodo db id t
        = todo.Outcome.ok (s.UpdateTodo db id t)) ∧
    (todo.MakeServerEndpoints s).ServiceStatus db = todo.Outcome.ok (s.ServiceStatus db) := by
  refine ⟨fun _ => rfl, fun _ => rfl, fun _ _ => rfl, rfl⟩

/-- The methods of `Endpoints` that do not hand on the service, for every
service `s` and `e = MakeServerEndpoints(s)`: `e.DeleteTodo`, `e.GetTodos` and
`e.GetTodosOwned` panic on a failed type assertion, whatever `s` returns. -/
theorem Endpoints_panics {σ : Type} (s : todo.Service σ) (db : σ) :
    (∀ id : uuid.UUID, (todo.MakeServerEndpoints s).DeleteTodo db id = todo.Outcome.panic) ∧
    (todo.MakeServerEndpoints s).GetTodos db = todo.Outcome.panic ∧
    (∀ u : authorization.User,
      (todo.MakeServerEndpoints s).GetTodosOwned db u = todo.Outcome.panic) := by
  refine ⟨fun _ => rfl, rfl, fun _ => rfl⟩

/-- C23: the methods of `Endpoints` evaluated for `e = MakeServerEndpoints(s)`
with `s` the service on a working database that holds one Todo: `s.DeleteTodo`,
`s.GetTodos` and `s.GetTodosOwned` return their results, while `e.DeleteTodo`
panics where it asserts an `updateTodoResponse` on the `deleteTodoResponse` it
got, and `e.GetTodos` and `e.GetTodosOwned` panic in `UpdateTodoEndpoint`, which
they call with a `getTodosRequest`; and `Endpoints.GetTodo` on an endpoint that
returns a transport error returns `Todo{}` and a nil error, not that error. -/
theorem Endpoints_unfaithful :
    (todo.dbSvc (todo.sqlite ⟨5, 7⟩) todo.sqliteConn).DeleteTodo
        [{ ID := 1, Title := "buy milk", OwnerID := 2 }] 1
      = ([{ DeletedAt := some 5, ID := 1, Title := "buy milk", OwnerID := 2 }], none) ∧
    (todo.MakeServerEndpoints (todo.dbSvc (todo.sqlite ⟨5, 7⟩) todo.sqliteConn)).DeleteTodo
        [{ ID := 1, Title := "buy milk", OwnerID := 2 }] 1
      = todo.Outcome.panic ∧
    (todo.dbSvc (todo.sqlite ⟨5, 7⟩) todo.sqliteConn).GetTodos
        [{ ID := 1, Title := "buy milk", OwnerID := 2 }]
      = ([{ ID := 1, Title := "buy milk", OwnerID := 2 }],
          [{ ID := 1, Title := "buy milk", OwnerID := 2 }], none) ∧
    (todo.MakeServerEndpoints (todo.dbSvc (todo.sqlite ⟨5, 7⟩) todo.sqliteConn)).GetTodos
        [{ ID := 1, Title := "buy milk", OwnerID := 2 }]
      = todo.Outcome.panic ∧
    (todo.dbSvc (todo.sqlite ⟨5, 7⟩) todo.sqliteConn).GetTodosOwned
        [{ ID := 1, Title := "buy milk", OwnerID := 2 }] { ID := 2 }
      = ([{ ID := 1, Title := "buy milk", OwnerID := 2 }],
          [{ ID := 1, Title := "buy milk", OwnerID := 2 }], none) ∧
    (todo.MakeServerEndpoints (todo.dbSvc (todo.sqlite ⟨5, 7⟩) todo.sqliteConn)).GetTodosOwned
        [{ ID := 1, Title := "buy milk", OwnerID := 2 }] { ID := 2 }
      = todo.Outcome.panic ∧
    ({ GetTodoEndpoint := some (fun db _ =>
          todo.Outcome.ok (db, todo.Response.getTodo {}, some (GoError.driver 1))) } :
        todo.Endpoints todo.sqlite.Rows).GetTodo [] 1
      = todo.Outcome.ok ([], {}, none) ∧
    ({ AddTodoEndpoint := some (fun db _ =>
          todo.Outcome.ok (db, todo.Response.addTodo {}, some (GoError.driver 1))) } :
        todo.Endpoints todo.sqlite.Rows).AddTodo [] {}
      = todo.Outcome.ok ([], {}, some (GoError.driver 1)) := by
  decide

/-- C24: `UpdateUser` evaluated with a hasher that fails: "alice" with id `1` is
stored, the patch carries the Username "alicia" and the Password "hunter2", and
the hasher returns an error for "hunter2".  `UpdateUser` returns the User
"alicia" and a nil error, the stored row has the new username, and its password
hash is the one before the call: the password change is not persisted and no
error is returned, where the claim asks for a non-nil error and an unchanged
row. -/
theorem UpdateUser_hasher_fails :
    (authorization.newStoredUser
        ⟨fun _ _ => ("", some (GoError.argon2id 1)),
          fun pw h => (decide (h = "argon2id$" ++ pw), none)⟩
        { ID := 1, Username := "alicia", Password := "hunter2" } {}).2
      = some (GoError.argon2id 1) ∧
    authorization.UpdateUser
        (authorization.sqliteSvc ⟨fun _ _ => ("", some (GoError.argon2id 1)),
          fun pw h => (decide (h = "argon2id$" ++ pw), none)⟩ {} ⟨5, 7⟩)
        [{ ID := 1, Username := "alice", PasswordHash := "argon2id$s3cret" }] 1
        { Username := "alicia", Password := "hunter2" }
      = ([{ Model := { UpdatedAt := 5 }, ID := 1, Username := "alicia",
            PasswordHash := "argon2id$s3cret" }],
          { ID := 1, Username := "alicia" }, none) := by
  decide

/-- What `UpdateUser` does with the error of the hasher, for every store: for a
patch whose id is nil or the id of the call, the result is the one the call
gives with a hasher that returns the same hash and no error. -/
theorem UpdateUser_ignores_hasher_error {σ : Type} (st : authorization.Store σ)
    (p : argon2id.Params) (a : argon2id.Funcs) (db : σ) (id : uuid.UUID)
    (U : authorization.User) (hid : U.ID = uuid.Nil ∨ U.ID = id) :
    authorization.UpdateUser ⟨a, p, st⟩ db id U
      = authorization.UpdateUser
          ⟨⟨fun pw q => ((a.HashPassword pw q).1, none), a.ComparePasswordAndHash⟩, p, st⟩
          db id U := by
  rw [authorization.UpdateUser_consistent _ _ _ _ hid,
    authorization.UpdateUser_consistent _ _ _ _ hid]
  simp only [authorization.newStoredUser_eq]
  by_cases hpw : U.Password = ""
  · simp [hpw]
  · simp [hpw]
